import Mathlib

/-!
Shallow embedding of `src/pele_analysis/_msm_clustering.py` (class `ligand_msm`
and the helper `_plot_Nice_PES`), together with theorems settling the claims of
the specification against it.

Modelling conventions.

Python dictionaries are association lists (`dlookup` / `dinsert`): assignment
to an existing key replaces the value in place, a fresh key is appended at the
end, and iteration follows list order, matching CPython insertion-ordered
dictionaries.

Numpy 2-D arrays are lists of rows (`Traj`), generic in the scalar type;
`np.concatenate(_, axis=1)` on arrays with equal row counts is a row-wise
append (`hconcat`), `np.concatenate` along axis 0 is `njoin`, and `shape[1]`
of a rectangular array is the length of its first row (`ncols`).

The pandas combined results table `pele_analysis.data` is a `DataFrame`: a
list of rows carrying the Protein / Ligand / Trajectory index levels plus the
column values, together with the Trajectory values of level 3 of the original
MultiIndex (`trajLevels`).  Pandas fixes `index.levels` when the frame is
built, and boolean filtering does not prune them, so
`filtered.index.levels[3]` still returns the full level values of the
unfiltered table; `getMetricData` and the metrics branch of `addFeature`
iterate over exactly those.

The external pyemma library enters as abstract functions in `Env`:
`load` for `pyemma.coordinates.load`, and `ticaFit` / `ticaOutput` /
`ticaTransform` for `pyemma.coordinates.tica`, `.get_output()` and
`.transform`.  The model type of a fitted TICA object is a parameter `M`.

Raising an exception is modelled by `Except.error`; since the python object
keeps the mutations applied before the raise, errors carry the state at the
moment of the raise.
-/

namespace PeleMSM

/-- Lookup in a python-style dictionary modelled as an association list. -/
def dlookup {K V : Type} [BEq K] (d : List (K × V)) (k : K) : Option V :=
  (d.find? (fun p => p.1 == k)).map (fun p => p.2)

/-- Assignment `d[k] = v`: replace in place, or append a fresh key. -/
def dinsert {K V : Type} [BEq K] : List (K × V) → K → V → List (K × V)
  | [], k, v => [(k, v)]
  | (k0, v0) :: rest, k, v =>
      if k0 == k then (k, v) :: rest else (k0, v0) :: dinsert rest k v

/-- Lookup in a nested dictionary (`d[k1][k2]`). -/
def dlookup2 {K1 K2 V : Type} [BEq K1] [BEq K2]
    (d : List (K1 × List (K2 × V))) (k1 : K1) (k2 : K2) : Option V :=
  (dlookup d k1).bind (fun d2 => dlookup d2 k2)

/-- Nested assignment `d[k1][k2] = v` (with `d[k1]` already present in the
code paths modelled here; an absent outer key behaves as an empty inner
dictionary). -/
def dinsert2 {K1 K2 V : Type} [BEq K1] [BEq K2]
    (d : List (K1 × List (K2 × V))) (k1 : K1) (k2 : K2) (v : V) :
    List (K1 × List (K2 × V)) :=
  dinsert d k1 (dinsert ((dlookup d k1).getD []) k2 v)

theorem dlookup_cons {K V : Type} [BEq K] (k0 : K) (v0 : V) (d : List (K × V)) (k : K) :
    dlookup ((k0, v0) :: d) k = if k0 == k then some v0 else dlookup d k := by
  by_cases h : k0 == k <;> simp [dlookup, List.find?, h]

theorem dlookup_dinsert_self {K V : Type} [BEq K] [LawfulBEq K]
    (d : List (K × V)) (k : K) (v : V) :
    dlookup (dinsert d k v) k = some v := by
  induction d with
  | nil => simp [dinsert, dlookup_cons]
  | cons kv rest ih =>
    obtain ⟨k0, v0⟩ := kv
    by_cases h : k0 == k
    · simp [dinsert, h, dlookup_cons]
    · simp [dinsert, h, dlookup_cons, ih]

theorem dlookup_dinsert_ne {K V : Type} [BEq K] [LawfulBEq K]
    (d : List (K × V)) (k k1 : K) (v : V) (h : k1 ≠ k) :
    dlookup (dinsert d k v) k1 = dlookup d k1 := by
  induction d with
  | nil =>
    have hk : (k == k1) = false := by
      simpa using fun he => h he.symm
    simp [dinsert, dlookup_cons, hk]
  | cons kv rest ih =>
    obtain ⟨k0, v0⟩ := kv
    by_cases h0 : k0 == k
    · have hk0 : k0 = k := by simpa using h0
      have hk : (k == k1) = false := by
        simpa using fun he => h he.symm
      have hk0k1 : (k0 == k1) = false := by
        simpa [hk0] using fun he => h he.symm
      simp [dinsert, h0, dlookup_cons, hk, hk0k1]
    · simp [dinsert, h0, dlookup_cons, ih]

theorem dinsert_dinsert {K V : Type} [BEq K] [LawfulBEq K]
    (d : List (K × V)) (k : K) (v w : V) :
    dinsert (dinsert d k v) k w = dinsert d k w := by
  induction d with
  | nil => simp [dinsert]
  | cons kv rest ih =>
    obtain ⟨k0, v0⟩ := kv
    by_cases h : k0 == k
    · simp [dinsert, h]
    · simp [dinsert, h, ih]

/-- A numpy 2-D array: a list of rows. -/
abbrev Traj (α : Type) := List (List α)

/-- Row-wise concatenation, `np.concatenate([a, m], axis=1)` for arrays with
equal row counts. -/
def hconcat {α : Type} (a m : Traj α) : Traj α :=
  List.zipWith (fun ra rm => ra ++ rm) a m

/-- Concatenation along axis 0, `np.concatenate(ts)`. -/
def njoin {α : Type} (ts : List (Traj α)) : Traj α := ts.flatten

/-- Column count (`shape[1]`) of a rectangular 2-D array, read off its first
row. -/
def ncols {α : Type} (t : Traj α) : ℕ :=
  ((t.head?).map List.length).getD 0

/-- One row of the combined results table `pele_analysis.data`: the index
levels used by the code (Protein, Ligand, Trajectory) and the column values
by column name. -/
structure Row (α : Type) where
  protein : String
  ligand : String
  trajectory : ℕ
  values : String → α

/-- The combined results table.  `trajLevels` records
`data.index.levels[3]` (the Trajectory level): pandas computes the level
values when the MultiIndex is built and keeps them unchanged under boolean
filtering, so every filtered view of the table still reports the full list. -/
structure DataFrame (α : Type) where
  rows : List (Row α)
  trajLevels : List ℕ
  columns : List String

/-- Frame count of one trajectory of a (protein, ligand) pair: the number of
rows of the combined results table carrying that index triple. -/
def frameCount {α : Type} (df : DataFrame α) (protein lig : String) (t : ℕ) : ℕ :=
  (df.rows.filter
    (fun r => r.ligand == lig && r.protein == protein && r.trajectory == t)).length

/-- The trajectories associated with a (protein, ligand) pair: the distinct
Trajectory values among the rows of that pair. -/
def associatedTrajs {α : Type} (df : DataFrame α) (protein lig : String) : List ℕ :=
  ((df.rows.filter (fun r => r.ligand == lig && r.protein == protein)).map
    (fun r => r.trajectory)).dedup

/-- Method `getMetricData(self, ligand, protein, metric)` of `ligand_msm`:
slice the combined results table by the Ligand level, then by the Protein
level, and collect `trajectory_data[metric].to_numpy()` (a 1-D array) for
every `trajectory in ligand_data.index.levels[3]`. -/
def getMetricData {α : Type} (df : DataFrame α) (lig protein metric : String) :
    List (List α) :=
  let ligand_data := df.rows.filter (fun r => r.ligand == lig)
  let protein_data := ligand_data.filter (fun r => r.protein == protein)
  df.trajLevels.map (fun t =>
    (protein_data.filter (fun r => r.trajectory == t)).map (fun r => r.values metric))

/-- Concrete table falsifying claim C1: ligand L has trajectory 1 under
protein P1 and trajectory 2 under protein P2, so the Trajectory level of the
full index is `[1, 2]` while only trajectory 1 is associated with (P1, L). -/
def dfCexC1 : DataFrame Unit where
  rows := [⟨"P1", "L", 1, fun _ => ()⟩, ⟨"P2", "L", 2, fun _ => ()⟩]
  trajLevels := [1, 2]
  columns := ["metric_x"]

/-- The external collaborators of `ligand_msm`: the analysis object
(`proteins` and the combined results table `data`, called `df` here) and the
pyemma library.  `M` is the type of a fitted TICA object
(`pyemma.coordinates.tica(...)`); `load trajFiles featurizer` models
`pyemma.coordinates.load(trajectories, features=...)`, `ticaOutput` models
`.get_output()` and `ticaTransform` models `.transform(...)`. -/
structure Env (α M : Type) where
  proteins : List String
  df : DataFrame α
  load : List String → List String → List (Traj α)
  ticaFit : List (Traj α) → ℕ → M
  ticaOutput : M → List (Traj α)
  ticaTransform : M → List (Traj α) → List (Traj α)

/-- The mutable instance attributes of a `ligand_msm` object, as set up by
`__init__` and populated by the methods.  A featurizer is modelled by its
list of added selections, a trajectory file by its path; `ndims` does not
exist before the first `calculateTICA` call, hence the `Option`. -/
structure MSMState (α M : Type) where
  trajectories : List ((String × String) × List String)
  all_trajectories : List String
  topology : List (String × String)
  ligand_atoms : List (String × List String)
  features : List (String × List String)
  data : List (String × List (String × List (Traj α)))
  tica_output : List (String × List (String × List (Traj α)))
  tica_concatenated : List (String × List (String × Traj α))
  all_data : List (String × List (Traj α))
  all_tica : List (String × M)
  all_tica_output : List (String × List (Traj α))
  all_tica_concatenated : List (String × Traj α)
  metric_features : List (String × List (String × List (Traj α)))
  ndims : Option ℕ

/-- The list `implemented_features` of `addFeature`. -/
def implemented_features : List String := ["positions", "metrics"]

/-- The message of the `ValueError` raised by `addFeature`, the python
formatting `'Feature %s not implemented. try: %s' % (feature,
implemented_features)` spelt out (a python list prints its strings between
single quotes). -/
def featureErrMsg (feature : String) : String :=
  "Feature " ++ feature ++ " not implemented. try: [\x27positions\x27, \x27metrics\x27]"

/-- The metric columns of the combined results table: the column names that
start with the `metric_` marker. -/
def metricCols {α : Type} (df : DataFrame α) : List String :=
  df.columns.filter (fun m => m.startsWith "metric_")

/-- One per-trajectory metric array of the metrics branch of `addFeature`:
`trajectory_data[metrics].to_numpy()` for the table sliced by Ligand, then
Protein, then one Trajectory value. -/
def metricTrajArray {α : Type} (df : DataFrame α) (lig protein : String) (t : ℕ) :
    Traj α :=
  let ligand_data := df.rows.filter (fun r => r.ligand == lig)
  let protein_data := ligand_data.filter (fun r => r.protein == protein)
  (protein_data.filter (fun r => r.trajectory == t)).map
    (fun r => (metricCols df).map r.values)

/-- The arrays appended for one protein by the metrics branch of
`addFeature`: one per `trajectory in ligand_data.index.levels[3]` (the full
Trajectory level of the unfiltered table). -/
def metricArrays {α : Type} (df : DataFrame α) (lig protein : String) :
    List (Traj α) :=
  df.trajLevels.map (fun t => metricTrajArray df lig protein t)

/-- The per-protein loop of the metrics branch of `addFeature`: make sure
`metric_features[ligand][protein]` exists, then append every per-trajectory
metric array to it. -/
def metricsUpdate {α M : Type} (env : Env α M) (lig : String)
    (mf0 : List (String × List (Traj α))) : List (String × List (Traj α)) :=
  env.proteins.foldl
    (fun mf p => dinsert mf p ((dlookup mf p).getD [] ++ metricArrays env.df lig p))
    mf0

/-- Method `addFeature(self, feature, ligand)`.  An unsupported feature name
raises a `ValueError` before anything is mutated; `positions` adds an
all-atom selection to the ligand featurizer (`KeyError` when the ligand has
no featurizer); `metrics` gathers the metric columns into per-protein,
per-trajectory arrays appended to `metric_features[ligand]`. -/
def addFeature {α M : Type} (env : Env α M) (s : MSMState α M)
    (feature lig : String) : Except (String × MSMState α M) (MSMState α M) :=
  if feature ∉ implemented_features then
    .error (featureErrMsg feature, s)
  else
    match
      (if feature == "positions" then
        match dlookup s.features lig with
        | none => Except.error ("KeyError", s)
        | some f =>
            Except.ok {s with features := dinsert s.features lig (f ++ ["all"])}
      else Except.ok s) with
    | .error e => .error e
    | .ok s1 =>
      if feature == "metrics" then
        let mfLig := (dlookup s1.metric_features lig).getD []
        let mf := dinsert s1.metric_features lig (metricsUpdate env lig mfLig)
        .ok {s1 with metric_features := mf}
      else .ok s1

/-- The inner loop of `getFeaturesData` over
`t in range(len(self.metric_features[ligand][protein]))`: assert that the
metric array and the loaded feature array for trajectory `t` have the same
row count, then replace the feature array by the column-wise concatenation.
The python loop mutates `self.data[ligand][protein]` in place, so the error
carries the array list at the moment of the raise: already-checked entries
concatenated, the failing entry and everything after it untouched.
Reading `self.data[ligand][protein][t]` past the end of the loaded list is
an `IndexError`. -/
def addMetricsGo {α : Type} :
    List (Traj α) → List (Traj α) → Except (String × List (Traj α)) (List (Traj α))
  | [], arrs => .ok arrs
  | _ :: _, [] => .error ("IndexError", [])
  | m :: ms, a :: rest =>
      if m.length = a.length then
        match addMetricsGo ms rest with
        | .ok done => .ok (hconcat a m :: done)
        | .error (e, done) => .error (e, hconcat a m :: done)
      else .error ("AssertionError", a :: rest)

/-- The body of the `for protein in self.pele_analysis.proteins` loop of
`getFeaturesData`: load the feature arrays for the (protein, ligand)
trajectories through the ligand featurizer, store them in
`data[ligand][protein]`, concatenate the metric arrays onto them when metric
features were registered for the ligand, and append the result to the pooled
`all_data[ligand]`. -/
def gfdProtein {α M : Type} (env : Env α M) (lig : String)
    (s : MSMState α M) (p : String) :
    Except (String × MSMState α M) (MSMState α M) :=
  match dlookup s.trajectories (p, lig) with
  | none => .error ("KeyError", s)
  | some trajFiles =>
    match dlookup s.features lig with
    | none => .error ("KeyError", s)
    | some feat =>
      let loaded := env.load trajFiles feat
      let s1 : MSMState α M := {s with data := dinsert2 s.data lig p loaded}
      match dlookup s1.metric_features lig with
      | none =>
          let pooled := dinsert s1.all_data lig (((dlookup s1.all_data lig).getD []) ++ loaded)
          .ok {s1 with all_data := pooled}
      | some mfl =>
        match dlookup mfl p with
        | none => .error ("KeyError", s1)
        | some ms =>
          match addMetricsGo ms loaded with
          | .error (e, arrs) =>
              .error (e, {s1 with data := dinsert2 s1.data lig p arrs})
          | .ok arrs =>
              let s2 : MSMState α M := {s1 with data := dinsert2 s1.data lig p arrs}
              let pooled := dinsert s2.all_data lig (((dlookup s2.all_data lig).getD []) ++ arrs)
              .ok {s2 with all_data := pooled}

/-- The protein loop of `getFeaturesData`. -/
def gfdLoop {α M : Type} (env : Env α M) (lig : String) :
    MSMState α M → List String → Except (String × MSMState α M) (MSMState α M)
  | s, [] => .ok s
  | s, p :: ps =>
    match gfdProtein env lig s p with
    | .error e => .error e
    | .ok s1 => gfdLoop env lig s1 ps

/-- Method `getFeaturesData(self, ligand)`: make sure `data[ligand]` and
`all_data[ligand]` exist, then run the protein loop. -/
def getFeaturesData {α M : Type} (env : Env α M) (s : MSMState α M) (lig : String) :
    Except (String × MSMState α M) (MSMState α M) :=
  let s1 : MSMState α M :=
    if (dlookup s.data lig).isSome then s
    else {s with data := dinsert s.data lig []}
  let s2 : MSMState α M :=
    if (dlookup s1.all_data lig).isSome then s1
    else {s1 with all_data := dinsert s1.all_data lig []}
  gfdLoop env lig s2 env.proteins

/-- Fold of `dinsert` over a list of key/value pairs, the shape of the
`for protein in self.data[ligand]` loop of `calculateTICA`. -/
def updDict {K V A : Type} [BEq K] (D : List (K × V)) (l : List (K × A)) (f : A → V) :
    List (K × V) :=
  l.foldl (fun D pa => dinsert D pa.1 (f pa.2)) D

/-- Method `calculateTICA(self, ligand, lag_time)`: fit one TICA object on
the pooled `all_data[ligand]`, record the fitted object, its output, the
axis-0 concatenation of the output and its column count (`self.ndims`), then
project every protein's per-trajectory feature arrays through the fitted
object and concatenate per protein.  Missing `all_data[ligand]` or
`data[ligand]` is a `KeyError`. -/
def calculateTICA {α M : Type} (env : Env α M) (s : MSMState α M)
    (lig : String) (lag : ℕ) :
    Except (String × MSMState α M) (MSMState α M) :=
  match dlookup s.all_data lig with
  | none => .error ("KeyError", s)
  | some ad =>
    let m := env.ticaFit ad lag
    let out := env.ticaOutput m
    let conc := njoin out
    let s1 : MSMState α M :=
      {s with all_tica := dinsert s.all_tica lig m,
              all_tica_output := dinsert s.all_tica_output lig out,
              all_tica_concatenated := dinsert s.all_tica_concatenated lig conc,
              ndims := some (ncols conc)}
    match dlookup s1.data lig with
    | none => .error ("KeyError", s1)
    | some dl =>
      let inner0 := (dlookup s1.tica_output lig).getD []
      let innerC0 := (dlookup s1.tica_concatenated lig).getD []
      let newOut := updDict inner0 dl (fun arrs => env.ticaTransform m arrs)
      let newConc := updDict innerC0 dl (fun arrs => njoin (env.ticaTransform m arrs))
      let to1 := dinsert s1.tica_output lig newOut
      let tc1 := dinsert s1.tica_concatenated lig newConc
      .ok {s1 with tica_output := to1, tica_concatenated := tc1}

/-- The sweep loop of `plotLagTimeVsTICADim`: run `calculateTICA` for every
lag time of the list, collecting `all_tica_concatenated[ligand].shape[1]`
after each fit. -/
def lagLoop {α M : Type} (env : Env α M) (lig : String) :
    MSMState α M → List ℕ →
    Except (String × MSMState α M) (MSMState α M × List ℕ)
  | s, [] => .ok (s, [])
  | s, lt :: rest =>
    match calculateTICA env s lig lt with
    | .error e => .error e
    | .ok s1 =>
      let ndim := ncols ((dlookup s1.all_tica_concatenated lig).getD [])
      match lagLoop env lig s1 rest with
      | .error e => .error e
      | .ok (sf, dims) => .ok (sf, ndim :: dims)

/-- Method `plotLagTimeVsTICADim(self, ligand, max_lag_time)`: sweep
`lt in range(1, max_lag_time+1)`, refitting TICA at every lag time; the
second component is the plotted list of retained dimension counts. -/
def plotLagTimeVsTICADim {α M : Type} (env : Env α M) (s : MSMState α M)
    (lig : String) (maxLag : ℕ) :
    Except (String × MSMState α M) (MSMState α M × List ℕ) :=
  lagLoop env lig s (List.range' 1 maxLag)

/-- Method `plotTICADistribution(self, ligand, max_tica=10)`: a pure read of
`all_tica_concatenated[ligand]`, plotting its first `max_tica` columns
(`KeyError` when `calculateTICA` has not run for the ligand). -/
def plotTICADistribution {α M : Type} (s : MSMState α M) (lig : String)
    (maxTica : ℕ) : Except String (Traj α) :=
  match dlookup s.all_tica_concatenated lig with
  | none => .error "KeyError"
  | some conc => .ok (conc.map (fun r => r.take maxTica))

/-- The pair list `itertools.combinations(range(ndims), r=2)`. -/
def comb2 (nd : ℕ) : List (ℕ × ℕ) :=
  (List.range nd).flatMap (fun i =>
    ((List.range nd).filter (fun j => i < j)).map (fun j => (i, j)))

/-- Method `plotTICADensity(self, ligand, ndims=4)`: read the columns
`IC[i] = all_tica_concatenated[ligand][:, i]` for `i in range(ndims)` (the
first access raises `KeyError` when `calculateTICA` has not run for the
ligand; with `ndims = 0` the loop body never runs and nothing is accessed),
then pair them up for the density plots. -/
def plotTICADensity {α M : Type} (s : MSMState α M) (lig : String) (nd : ℕ) :
    Except String (List (List (Option α) × List (Option α))) :=
  if nd = 0 then .ok []
  else
    match dlookup s.all_tica_concatenated lig with
    | none => .error "KeyError"
    | some conc =>
      let IC := fun i => conc.map (fun r => r.get? i)
      .ok ((comb2 nd).map (fun c => (IC c.1, IC c.2)))

/-! Claim C1: behaviour of `getMetricData`. -/

/-- Claim C1, counterexample: on `dfCexC1`, `getMetricData` for the pair
(P1, L) returns two arrays although only one trajectory is associated with
the pair, the extra one empty — it iterates the Trajectory level values of
the full table, which pandas does not prune when slicing. -/
theorem C1_counterexample :
    ¬ ((getMetricData dfCexC1 "L" "P1" "metric_x").length
        = (associatedTrajs dfCexC1 "P1" "L").length) ∧
    (getMetricData dfCexC1 "L" "P1" "metric_x").length = 2 ∧
    (associatedTrajs dfCexC1 "P1" "L").length = 1 ∧
    (getMetricData dfCexC1 "L" "P1" "metric_x")[1]? = some [] := by
  refine ⟨?_, ?_, ?_, ?_⟩ <;> decide

/-- Claim C1 as amended: `getMetricData(ligand, protein, metric)` returns one
1-D array per Trajectory value of the full table's index level 3 (pandas
keeps the unfiltered level values under boolean slicing), in level order —
not one per trajectory associated with the (protein, ligand) pair; the k-th
array holds the metric column of the rows matching (ligand, protein, k-th
level value), so its length is that trajectory's frame count when the
trajectory is associated with the pair and 0 otherwise. -/
theorem C1_amended {α : Type} (df : DataFrame α) (lig protein metric : String) :
    (getMetricData df lig protein metric).length = df.trajLevels.length ∧
    ∀ k : ℕ, ((getMetricData df lig protein metric)[k]?).map List.length
      = (df.trajLevels[k]?).map (fun t => frameCount df protein lig t) := by
  constructor
  · simp [getMetricData]
  · intro k
    simp only [getMetricData, List.getElem?_map, Option.map_map]
    cases ht : df.trajLevels[k]? with
    | none => rfl
    | some t =>
      simp only [Option.map_some', Option.some.injEq, Function.comp_apply]
      rw [List.length_map, List.filter_filter, List.filter_filter]
      unfold frameCount
      congr 1
      apply List.filter_congr
      intro r _
      cases h1 : (r.ligand == lig) <;> cases h2 : (r.protein == protein) <;>
        cases h3 : (r.trajectory == t) <;> simp [h1, h2, h3]

/-! Claim C4: the invalid-argument condition of `addFeature`. -/

/-- A small concrete environment (one protein P, one ligand L with one
trajectory of one frame) used by the witnesses. -/
def env0 : Env Unit Unit where
  proteins := ["P"]
  df := ⟨[⟨"P", "L", 1, fun _ => ()⟩], [1], ["metric_x"]⟩
  load := fun _ _ => [[[()]]]
  ticaFit := fun _ _ => ()
  ticaOutput := fun _ => [[[()]]]
  ticaTransform := fun _ ts => ts

/-- A concrete freshly-constructed state matching `env0`: trajectories,
topology, atom names and an empty featurizer registered, nothing else
populated. -/
def st0 : MSMState Unit Unit where
  trajectories := [(("P", "L"), ["traj1"])]
  all_trajectories := ["traj1"]
  topology := [("L", "topology")]
  ligand_atoms := [("L", ["C1"])]
  features := [("L", [])]
  data := []
  tica_output := []
  tica_concatenated := []
  all_data := []
  all_tica := []
  all_tica_output := []
  all_tica_concatenated := []
  metric_features := []
  ndims := none

/-- Claim C4: for a feature name outside the two supported values,
`addFeature` raises a `ValueError` whose message contains the rejected value
and both accepted values, with the state untouched (the carried state is the
input state); the two supported values do not raise that error — `positions`
succeeds whenever the ligand has a featurizer, `metrics` always. -/
theorem C4_addFeature_invalid {α M : Type} (env : Env α M) (s : MSMState α M)
    (feature lig : String) :
    (feature ∉ implemented_features →
      addFeature env s feature lig = .error (featureErrMsg feature, s) ∧
      feature.toList <:+: (featureErrMsg feature).toList ∧
      "positions".toList <:+: (featureErrMsg feature).toList ∧
      "metrics".toList <:+: (featureErrMsg feature).toList) ∧
    ((dlookup s.features lig).isSome →
      ∃ s1, addFeature env s "positions" lig = .ok s1) ∧
    (∃ s1, addFeature env s "metrics" lig = .ok s1) := by
  have hsplit : (featureErrMsg feature).toList
      = "Feature ".toList ++ feature.toList
        ++ " not implemented. try: [\x27positions\x27, \x27metrics\x27]".toList := by
    simp [featureErrMsg, String.toList, String.data_append]
  refine ⟨fun h => ⟨?_, ?_, ?_, ?_⟩, fun h => ?_, ?_⟩
  · simp only [addFeature]
    rw [if_pos h]
  · exact ⟨"Feature ".toList, _, hsplit.symm⟩
  · obtain ⟨u, v, huv⟩ : "positions".toList <:+:
        " not implemented. try: [\x27positions\x27, \x27metrics\x27]".toList := by decide
    exact ⟨"Feature ".toList ++ feature.toList ++ u, v, by
      rw [hsplit, ← huv]; simp⟩
  · obtain ⟨u, v, huv⟩ : "metrics".toList <:+:
        " not implemented. try: [\x27positions\x27, \x27metrics\x27]".toList := by decide
    exact ⟨"Feature ".toList ++ feature.toList ++ u, v, by
      rw [hsplit, ← huv]; simp⟩
  · rw [Option.isSome_iff_exists] at h
    obtain ⟨f, hf⟩ := h
    have hres : addFeature env s "positions" lig
        = .ok {s with features := dinsert s.features lig (f ++ ["all"])} := by
      simp [addFeature, implemented_features, hf]
    exact ⟨_, hres⟩
  · refine ⟨{s with metric_features := dinsert s.metric_features lig (metricsUpdate env lig ((dlookup s.metric_features lig).getD []))}, ?_⟩
    simp [addFeature, implemented_features]

/-- Witness for C4 at the concrete input `"velocities"` on `env0` / `st0`. -/
theorem C4_witness :
    addFeature env0 st0 "velocities" "L" = .error (featureErrMsg "velocities", st0) ∧
    "velocities".toList <:+: (featureErrMsg "velocities").toList ∧
    "positions".toList <:+: (featureErrMsg "velocities").toList ∧
    "metrics".toList <:+: (featureErrMsg "velocities").toList ∧
    (∃ s1, addFeature env0 st0 "positions" "L" = .ok s1) ∧
    (∃ s1, addFeature env0 st0 "metrics" "L" = .ok s1) := by
  obtain ⟨h1, h2, h3⟩ := C4_addFeature_invalid env0 st0 "velocities" "L"
  obtain ⟨he, hf, hp, hm⟩ := h1 (by decide)
  exact ⟨he, hf, hp, hm, h2 (by decide), h3⟩

/-! Claim C5: the free-energy transform of `_plot_Nice_PES`.

The function computes `z, x, y = np.histogram2d(...)`, `z += 0.1`,
`F = -np.log(z)` and hands `(F.T)*0.592 - np.min(F.T)*0.592` to
`gaussian_filter`.  The 2-D histogram over `bins × bins` is modelled as a
function on `Fin (b+1) × Fin (b+1)` (numpy requires at least one bin);
transposition swaps the two indices, and `np.min` over the transpose ranges
over the same entries as over `F` itself. -/

/-- The per-bin free energy `-np.log(z)` after the `z += 0.1` shift. -/
noncomputable def freeEnergyF (z : ℝ) : ℝ := -Real.log (z + 0.1)

/-- The minimum `np.min(F.T)` over all histogram bins. -/
noncomputable def minFT (b : ℕ) (z : Fin (b + 1) → Fin (b + 1) → ℝ) : ℝ :=
  Finset.univ.inf' Finset.univ_nonempty
    (fun p : Fin (b + 1) × Fin (b + 1) => freeEnergyF (z p.1 p.2))

/-- Entry (i, j) of the surface `(F.T)*0.592 - np.min(F.T)*0.592` handed to
the Gaussian filter (`F.T` indexed at (i, j) reads `F` at (j, i)). -/
noncomputable def shiftedSurface (b : ℕ) (z : Fin (b + 1) → Fin (b + 1) → ℝ)
    (i j : Fin (b + 1)) : ℝ :=
  freeEnergyF (z j i) * 0.592 - minFT b z * 0.592

/-- Modelled from the spec's words: the value `(-ln(z + 0.1))*0.592` shifted
so that the minimum of the scaled values over all bins is zero. -/
noncomputable def shiftedSurfaceSpec (b : ℕ) (z : Fin (b + 1) → Fin (b + 1) → ℝ)
    (i j : Fin (b + 1)) : ℝ :=
  freeEnergyF (z j i) * 0.592 -
    Finset.univ.inf' Finset.univ_nonempty
      (fun p : Fin (b + 1) × Fin (b + 1) => freeEnergyF (z p.1 p.2) * 0.592)

theorem inf'_mul_of_nonneg {ι : Type} (s : Finset ι) (H : s.Nonempty)
    (f : ι → ℝ) (c : ℝ) (hc : 0 ≤ c) :
    s.inf' H f * c = s.inf' H (fun a => f a * c) := by
  apply le_antisymm
  · apply Finset.le_inf'
    intro b hb
    exact mul_le_mul_of_nonneg_right (Finset.inf'_le f hb) hc
  · obtain ⟨i, hi, hieq⟩ := Finset.exists_mem_eq_inf' H f
    calc s.inf' H (fun a => f a * c) ≤ f i * c := Finset.inf'_le _ hi
      _ = s.inf' H f * c := by rw [hieq]

/-- Claim C5: the pre-smoothing surface equals `(-ln(z + 0.1))*0.592`
shifted so the minimum over all bins is zero, and for a histogram with
all-equal bin counts it is uniformly zero. -/
theorem C5_free_energy (b : ℕ) (z : Fin (b + 1) → Fin (b + 1) → ℝ)
    (i j : Fin (b + 1)) :
    shiftedSurface b z i j = shiftedSurfaceSpec b z i j ∧
    ∀ c : ℝ, (∀ a1 a2, z a1 a2 = c) → shiftedSurface b z i j = 0 := by
  constructor
  · unfold shiftedSurface shiftedSurfaceSpec minFT
    rw [inf'_mul_of_nonneg]
    norm_num
  · intro c hc
    unfold shiftedSurface minFT
    simp only [hc]
    rw [Finset.inf'_const]
    ring

/-- Witness for C5 at the constant histogram with every bin count 5. -/
theorem C5_witness : shiftedSurface 0 (fun _ _ => (5 : ℝ)) 0 0 = 0 :=
  (C5_free_energy 0 (fun _ _ => (5 : ℝ)) 0 0).2 5 (fun _ _ => rfl)

/-! Claim C8: plotting before fitting. -/

/-- Claim C8: when `calculateTICA` has never run for a ligand (no pooled
entry in `all_tica_concatenated`), `plotTICADistribution` and
`plotTICADensity` (with at least one requested dimension, as with the
default `ndims=4`) raise `KeyError` from the absent mapping entry; both are
pure reads whose result depends only on the pooled entry
`all_tica_concatenated[ligand]`, so they neither recompute nor mutate
anything. -/
theorem C8_plot_before_fit {α M : Type} (s : MSMState α M) (lig : String)
    (maxTica nd : ℕ) (habsent : dlookup s.all_tica_concatenated lig = none)
    (hnd : 0 < nd) :
    plotTICADistribution s lig maxTica = .error "KeyError" ∧
    plotTICADensity s lig nd = .error "KeyError" ∧
    ∀ (t : MSMState α M),
      dlookup t.all_tica_concatenated lig = dlookup s.all_tica_concatenated lig →
      plotTICADistribution t lig maxTica = plotTICADistribution s lig maxTica ∧
      plotTICADensity t lig nd = plotTICADensity s lig nd := by
  have hne : nd ≠ 0 := Nat.pos_iff_ne_zero.mp hnd
  refine ⟨?_, ?_, ?_⟩
  · simp [plotTICADistribution, habsent]
  · simp [plotTICADensity, habsent, hne]
  · intro t ht
    constructor
    · unfold plotTICADistribution
      rw [ht]
    · unfold plotTICADensity
      rw [ht]

/-- Witness for C8 on the freshly-constructed state `st0` (no TICA run). -/
theorem C8_witness :
    plotTICADistribution st0 "L" 10 = .error "KeyError" ∧
    plotTICADensity st0 "L" 4 = .error "KeyError" := by
  obtain ⟨h1, h2, _⟩ := C8_plot_before_fit st0 "L" 10 4 rfl (by decide)
  exact ⟨h1, h2⟩

/-! Machinery for `calculateTICA` (claims C6, C7, C9, C10). -/

theorem dlookup_updDict_not_mem {K V A : Type} [BEq K] [LawfulBEq K]
    (l : List (K × A)) (D : List (K × V)) (f : A → V) (p : K)
    (h : p ∉ l.map Prod.fst) :
    dlookup (updDict D l f) p = dlookup D p := by
  induction l generalizing D with
  | nil => rfl
  | cons ka rest ih =>
    obtain ⟨k, a⟩ := ka
    simp only [List.map_cons, List.mem_cons, not_or] at h
    have : dlookup (updDict (dinsert D k (f a)) rest f) p
        = dlookup (dinsert D k (f a)) p := ih _ h.2
    calc dlookup (updDict D ((k, a) :: rest) f) p
        = dlookup (updDict (dinsert D k (f a)) rest f) p := rfl
      _ = dlookup (dinsert D k (f a)) p := this
      _ = dlookup D p := dlookup_dinsert_ne _ _ _ _ h.1

theorem dlookup_updDict_mem {K V A : Type} [BEq K] [LawfulBEq K]
    (l : List (K × A)) (f : A → V) (p : K) (a : A) :
    ∀ D : List (K × V), (l.map Prod.fst).Nodup → (p, a) ∈ l →
      dlookup (updDict D l f) p = some (f a) := by
  induction l with
  | nil => intro D _ hmem; cases hmem
  | cons kb rest ih =>
    obtain ⟨k, b⟩ := kb
    intro D hnd hmem
    simp only [List.map_cons, List.nodup_cons] at hnd
    rcases List.mem_cons.mp hmem with heq | htail
    · have hk : p = k := congrArg Prod.fst heq
      have hb : a = b := congrArg Prod.snd heq
      subst hk
      subst hb
      have hnot : p ∉ rest.map Prod.fst := hnd.1
      calc dlookup (updDict D ((p, a) :: rest) f) p
          = dlookup (updDict (dinsert D p (f a)) rest f) p := rfl
        _ = dlookup (dinsert D p (f a)) p := dlookup_updDict_not_mem _ _ _ _ hnot
        _ = some (f a) := dlookup_dinsert_self _ _ _
    · exact ih _ hnd.2 htail

/-- Equality of everything `calculateTICA` records for a ligand: the fitted
TICA object, its output, the pooled concatenation, `ndims`, and the
per-protein projections and concatenations. -/
def ticaComponentsEq {α M : Type} (s2 s3 : MSMState α M) (lig : String) : Prop :=
  dlookup s2.all_tica lig = dlookup s3.all_tica lig ∧
  dlookup s2.all_tica_output lig = dlookup s3.all_tica_output lig ∧
  dlookup s2.all_tica_concatenated lig = dlookup s3.all_tica_concatenated lig ∧
  s2.ndims = s3.ndims ∧
  (∀ p, dlookup2 s2.tica_output lig p = dlookup2 s3.tica_output lig p) ∧
  (∀ p, dlookup2 s2.tica_concatenated lig p = dlookup2 s3.tica_concatenated lig p)

theorem calculateTICA_spec {α M : Type} (env : Env α M) (s : MSMState α M)
    (lig : String) (lag : ℕ) (ad : List (Traj α))
    (dl : List (String × List (Traj α)))
    (had : dlookup s.all_data lig = some ad) (hd : dlookup s.data lig = some dl) :
    ∃ s2, calculateTICA env s lig lag = .ok s2 ∧
      s2.trajectories = s.trajectories ∧ s2.features = s.features ∧
      s2.metric_features = s.metric_features ∧ s2.data = s.data ∧
      s2.all_data = s.all_data ∧
      s2.all_tica = dinsert s.all_tica lig (env.ticaFit ad lag) ∧
      s2.all_tica_output = dinsert s.all_tica_output lig (env.ticaOutput (env.ticaFit ad lag)) ∧
      s2.all_tica_concatenated = dinsert s.all_tica_concatenated lig (njoin (env.ticaOutput (env.ticaFit ad lag))) ∧
      s2.ndims = some (ncols (njoin (env.ticaOutput (env.ticaFit ad lag)))) ∧
      s2.tica_output = dinsert s.tica_output lig (updDict ((dlookup s.tica_output lig).getD []) dl (fun arrs => env.ticaTransform (env.ticaFit ad lag) arrs)) ∧
      s2.tica_concatenated = dinsert s.tica_concatenated lig (updDict ((dlookup s.tica_concatenated lig).getD []) dl (fun arrs => njoin (env.ticaTransform (env.ticaFit ad lag) arrs))) := by
  unfold calculateTICA
  rw [had]
  dsimp only
  rw [hd]
  dsimp only
  exact ⟨_, rfl, rfl, rfl, rfl, rfl, rfl, rfl, rfl, rfl, rfl, rfl, rfl⟩

theorem calc_calc_collapse {α M : Type} (env : Env α M) (s : MSMState α M)
    (lig : String) (t1 t2 : ℕ) (ad : List (Traj α))
    (dl : List (String × List (Traj α)))
    (had : dlookup s.all_data lig = some ad) (hd : dlookup s.data lig = some dl)
    (hnd : (dl.map Prod.fst).Nodup) :
    ∃ s1 s2 s3,
      calculateTICA env s lig t1 = .ok s1 ∧
      calculateTICA env s1 lig t2 = .ok s2 ∧
      calculateTICA env s lig t2 = .ok s3 ∧
      ticaComponentsEq s2 s3 lig := by
  obtain ⟨s1, hs1, htr1, hft1, hmf1, hda1, had1, hat1, hao1, hac1, hnd1, hto1, htc1⟩ :=
    calculateTICA_spec env s lig t1 ad dl had hd
  have had1s : dlookup s1.all_data lig = some ad := by rw [had1]; exact had
  have hd1s : dlookup s1.data lig = some dl := by rw [hda1]; exact hd
  obtain ⟨s2, hs2, htr2, hft2, hmf2, hda2, had2, hat2, hao2, hac2, hnd2, hto2, htc2⟩ :=
    calculateTICA_spec env s1 lig t2 ad dl had1s hd1s
  obtain ⟨s3, hs3, htr3, hft3, hmf3, hda3, had3, hat3, hao3, hac3, hnd3, hto3, htc3⟩ :=
    calculateTICA_spec env s lig t2 ad dl had hd
  refine ⟨s1, s2, s3, hs1, hs2, hs3, ?_, ?_, ?_, ?_, ?_, ?_⟩
  · rw [hat2, hat1, dinsert_dinsert, hat3]
  · rw [hao2, hao1, dinsert_dinsert, hao3]
  · rw [hac2, hac1, dinsert_dinsert, hac3]
  · rw [hnd2, hnd3]
  · intro p
    have hlook1 : dlookup s1.tica_output lig
        = some (updDict ((dlookup s.tica_output lig).getD []) dl (fun arrs => env.ticaTransform (env.ticaFit ad t1) arrs)) := by
      rw [hto1]; exact dlookup_dinsert_self _ _ _
    rw [dlookup2, hto2, dlookup_dinsert_self, dlookup2, hto3, dlookup_dinsert_self]
    rw [hlook1]
    simp only [Option.getD_some, Option.some_bind]
    by_cases hp : p ∈ dl.map Prod.fst
    · obtain ⟨⟨q, a⟩, hmem, hq⟩ := List.mem_map.mp hp
      simp only at hq
      subst hq
      rw [dlookup_updDict_mem _ _ _ a _ hnd hmem,
          dlookup_updDict_mem _ _ _ a _ hnd hmem]
    · rw [dlookup_updDict_not_mem _ _ _ _ hp, dlookup_updDict_not_mem _ _ _ _ hp,
          dlookup_updDict_not_mem _ _ _ _ hp]
  · intro p
    have hlook1 : dlookup s1.tica_concatenated lig
        = some (updDict ((dlookup s.tica_concatenated lig).getD []) dl (fun arrs => njoin (env.ticaTransform (env.ticaFit ad t1) arrs))) := by
      rw [htc1]; exact dlookup_dinsert_self _ _ _
    rw [dlookup2, htc2, dlookup_dinsert_self, dlookup2, htc3, dlookup_dinsert_self]
    rw [hlook1]
    simp only [Option.getD_some, Option.some_bind]
    by_cases hp : p ∈ dl.map Prod.fst
    · obtain ⟨⟨q, a⟩, hmem, hq⟩ := List.mem_map.mp hp
      simp only at hq
      subst hq
      rw [dlookup_updDict_mem _ _ _ a _ hnd hmem,
          dlookup_updDict_mem _ _ _ a _ hnd hmem]
    · rw [dlookup_updDict_not_mem _ _ _ _ hp, dlookup_updDict_not_mem _ _ _ _ hp,
          dlookup_updDict_not_mem _ _ _ _ hp]

theorem ticaComponentsEq_refl {α M : Type} (s : MSMState α M) (lig : String) :
    ticaComponentsEq s s lig :=
  ⟨rfl, rfl, rfl, rfl, fun _ => rfl, fun _ => rfl⟩

theorem ticaComponentsEq_trans {α M : Type} (a b c : MSMState α M) (lig : String)
    (h1 : ticaComponentsEq a b lig) (h2 : ticaComponentsEq b c lig) :
    ticaComponentsEq a c lig := by
  obtain ⟨x1, x2, x3, x4, x5, x6⟩ := h1
  obtain ⟨y1, y2, y3, y4, y5, y6⟩ := h2
  exact ⟨x1.trans y1, x2.trans y2, x3.trans y3, x4.trans y4,
    fun p => (x5 p).trans (y5 p), fun p => (x6 p).trans (y6 p)⟩

/-! Claim C6: re-fitting a ligand overwrites all prior TICA results. -/

/-- Claim C6: running `calculateTICA(ligand, t1)` and then
`calculateTICA(ligand, t2)` leaves the fitted TICA object, its output, the
pooled concatenation, the per-protein projections/concatenations and `ndims`
for that ligand equal to those of a single `calculateTICA(ligand, t2)` call
on the same feature data — nothing of the first fit survives. -/
theorem C6_calculateTICA_overwrites {α M : Type} (env : Env α M) (s : MSMState α M)
    (lig : String) (t1 t2 : ℕ) (ad : List (Traj α))
    (dl : List (String × List (Traj α)))
    (had : dlookup s.all_data lig = some ad) (hd : dlookup s.data lig = some dl)
    (hnd : (dl.map Prod.fst).Nodup) :
    ∃ s1 s2 s3,
      calculateTICA env s lig t1 = .ok s1 ∧
      calculateTICA env s1 lig t2 = .ok s2 ∧
      calculateTICA env s lig t2 = .ok s3 ∧
      ticaComponentsEq s2 s3 lig :=
  calc_calc_collapse env s lig t1 t2 ad dl had hd hnd

/-- A state with feature data populated for ligands L and L2 (one protein P,
one trajectory of one frame each), used by the TICA witnesses. -/
def stT : MSMState Unit Unit :=
  {st0 with data := [("L", [("P", [[[()]]])]), ("L2", [("P", [[[()]]])])],
            all_data := [("L", [[[()]]]), ("L2", [[[()]]])]}

/-- Witness for C6 on `stT` with lag times 1 and 2. -/
theorem C6_witness :
    ∃ s1 s2 s3,
      calculateTICA env0 stT "L" 1 = .ok s1 ∧
      calculateTICA env0 s1 "L" 2 = .ok s2 ∧
      calculateTICA env0 stT "L" 2 = .ok s3 ∧
      ticaComponentsEq s2 s3 "L" :=
  C6_calculateTICA_overwrites env0 stT "L" 1 2 [[[()]]] [("P", [[[()]]])]
    rfl rfl (by decide)

/-! Claim C9: `ndims` is a single instance-wide attribute. -/

/-- Claim C9: `self.ndims` is one field of the state, not a ligand-keyed
mapping, and every `calculateTICA` call overwrites it with the current
ligand's fitted dimensionality; after fitting a second ligand it holds the
second ligand's value. -/
theorem C9_ndims_instance_wide {α M : Type} (env : Env α M) (s : MSMState α M)
    (lig1 lig2 : String) (lag1 lag2 : ℕ) (ad1 ad2 : List (Traj α))
    (dl1 dl2 : List (String × List (Traj α)))
    (h1 : dlookup s.all_data lig1 = some ad1) (h2 : dlookup s.data lig1 = some dl1)
    (h3 : dlookup s.all_data lig2 = some ad2) (h4 : dlookup s.data lig2 = some dl2) :
    ∃ s1 s2,
      calculateTICA env s lig1 lag1 = .ok s1 ∧
      calculateTICA env s1 lig2 lag2 = .ok s2 ∧
      s1.ndims = some (ncols (njoin (env.ticaOutput (env.ticaFit ad1 lag1)))) ∧
      s2.ndims = some (ncols (njoin (env.ticaOutput (env.ticaFit ad2 lag2)))) := by
  obtain ⟨s1, hs1, _, _, _, hda1, had1, _, _, _, hnd1, _, _⟩ :=
    calculateTICA_spec env s lig1 lag1 ad1 dl1 h1 h2
  have h3s : dlookup s1.all_data lig2 = some ad2 := by rw [had1]; exact h3
  have h4s : dlookup s1.data lig2 = some dl2 := by rw [hda1]; exact h4
  obtain ⟨s2, hs2, _, _, _, _, _, _, _, _, hnd2, _, _⟩ :=
    calculateTICA_spec env s1 lig2 lag2 ad2 dl2 h3s h4s
  exact ⟨s1, s2, hs1, hs2, hnd1, hnd2⟩

/-- Witness for C9 on `stT`, fitting ligand L and then ligand L2. -/
theorem C9_witness :
    ∃ s1 s2,
      calculateTICA env0 stT "L" 1 = .ok s1 ∧
      calculateTICA env0 s1 "L2" 2 = .ok s2 ∧
      s1.ndims = some (ncols (njoin (env0.ticaOutput (env0.ticaFit [[[()]]] 1)))) ∧
      s2.ndims = some (ncols (njoin (env0.ticaOutput (env0.ticaFit [[[()]]] 2)))) :=
  C9_ndims_instance_wide env0 stT "L" "L2" 1 2 [[[()]]] [[[()]]]
    [("P", [[[()]]])] [("P", [[[()]]])] rfl rfl rfl rfl

/-! Claim C10: the lag-time sweep ends in the state of a single fit at the
largest lag time. -/

theorem lagLoop_cons {α M : Type} (env : Env α M) (lig : String)
    (s : MSMState α M) (lt : ℕ) (rest : List ℕ) :
    lagLoop env lig s (lt :: rest) =
      match calculateTICA env s lig lt with
      | .error e => .error e
      | .ok s1 =>
        match lagLoop env lig s1 rest with
        | .error e => .error e
        | .ok (sf, dims) =>
            .ok (sf, ncols ((dlookup s1.all_tica_concatenated lig).getD []) :: dims) :=
  rfl

theorem lagLoop_collapse {α M : Type} (env : Env α M) (lig : String)
    (ad : List (Traj α)) (dl : List (String × List (Traj α)))
    (hnd : (dl.map Prod.fst).Nodup) :
    ∀ (lts : List ℕ) (s : MSMState α M), lts ≠ [] →
      dlookup s.all_data lig = some ad → dlookup s.data lig = some dl →
      ∃ sf dims s3, lagLoop env lig s lts = .ok (sf, dims) ∧
        calculateTICA env s lig (lts.getLastD 0) = .ok s3 ∧
        ticaComponentsEq sf s3 lig := by
  intro lts
  induction lts with
  | nil => intro s h; cases h rfl
  | cons lt rest ih =>
    intro s _ had hd
    match rest, ih with
    | [], _ =>
      obtain ⟨s1, hs1, _, _, _, _, _, _, _, _, _, _, _⟩ :=
        calculateTICA_spec env s lig lt ad dl had hd
      refine ⟨s1, [ncols ((dlookup s1.all_tica_concatenated lig).getD [])], s1, ?_, ?_, ?_⟩
      · simp [lagLoop, hs1]
      · simpa [List.getLastD_cons] using hs1
      · exact ticaComponentsEq_refl s1 lig
    | lt2 :: rest2, ih =>
      obtain ⟨s1, hs1, _, _, _, hda1, had1, _, _, _, _, _, _⟩ :=
        calculateTICA_spec env s lig lt ad dl had hd
      have had1s : dlookup s1.all_data lig = some ad := by rw [had1]; exact had
      have hd1s : dlookup s1.data lig = some dl := by rw [hda1]; exact hd
      obtain ⟨sf, dims, s3, hloop, hcalc, hcomp⟩ :=
        ih s1 (List.cons_ne_nil _ _) had1s hd1s
      obtain ⟨s1b, s2b, s3b, hs1b, hs2b, hs3b, hcompb⟩ :=
        calc_calc_collapse env s lig lt ((lt2 :: rest2).getLastD 0) ad dl had hd hnd
      have he1 : s1b = s1 := by
        have := hs1b.symm.trans hs1
        exact (Except.ok.injEq _ _ ▸ this)
      subst he1
      have he2 : s3 = s2b := by
        have := hcalc.symm.trans hs2b
        exact (Except.ok.injEq _ _ ▸ this)
      subst he2
      refine ⟨sf, ncols ((dlookup s1b.all_tica_concatenated lig).getD []) :: dims, s3b, ?_, ?_, ?_⟩
      · rw [lagLoop_cons, hs1]
        dsimp only
        rw [hloop]
      · simpa [List.getLastD_cons] using hs3b
      · exact ticaComponentsEq_trans _ _ _ _ hcomp hcompb

/-- Claim C10: `plotLagTimeVsTICADim(ligand, max_lag_time)` with
`max_lag_time ≥ 1` runs `calculateTICA` for every lag time 1, ..,
`max_lag_time` in order, and on return the ligand's fitted TICA object,
outputs, concatenations and `ndims` equal those of one single
`calculateTICA(ligand, max_lag_time)` call from the initial state. -/
theorem C10_plotLagTimeVsTICADim {α M : Type} (env : Env α M) (s : MSMState α M)
    (lig : String) (maxLag : ℕ) (ad : List (Traj α))
    (dl : List (String × List (Traj α)))
    (had : dlookup s.all_data lig = some ad) (hd : dlookup s.data lig = some dl)
    (hnd : (dl.map Prod.fst).Nodup) (hpos : 1 ≤ maxLag) :
    ∃ sf dims s3,
      plotLagTimeVsTICADim env s lig maxLag = .ok (sf, dims) ∧
      calculateTICA env s lig maxLag = .ok s3 ∧
      ticaComponentsEq sf s3 lig := by
  obtain ⟨k, hk⟩ : ∃ k, maxLag = k + 1 := ⟨maxLag - 1, (Nat.succ_pred_eq_of_pos hpos).symm⟩
  subst hk
  have hne : List.range' 1 (k + 1) ≠ [] := by
    simp [List.range'_eq_nil]
  have hlast : (List.range' 1 (k + 1)).getLastD 0 = k + 1 := by
    rw [List.range'_concat, List.getLastD_concat]
    omega
  obtain ⟨sf, dims, s3, hloop, hcalc, hcomp⟩ :=
    lagLoop_collapse env lig ad dl hnd (List.range' 1 (k + 1)) s hne had hd
  rw [hlast] at hcalc
  exact ⟨sf, dims, s3, hloop, hcalc, hcomp⟩

/-- Witness for C10 on `stT` with `max_lag_time = 2`. -/
theorem C10_witness :
    ∃ sf dims s3,
      plotLagTimeVsTICADim env0 stT "L" 2 = .ok (sf, dims) ∧
      calculateTICA env0 stT "L" 2 = .ok s3 ∧
      ticaComponentsEq sf s3 "L" :=
  C10_plotLagTimeVsTICADim env0 stT "L" 2 [[[()]]] [("P", [[[()]]])]
    rfl rfl (by decide) (by decide)

/-! Machinery for `getFeaturesData` (claims C2, C3, C7). -/

/-- A frame-count mismatch between the loaded feature arrays `as` and the
registered metric arrays `ms` of one (protein, ligand) pair: some
corresponding pair of arrays differs in row count.  This is exactly the
condition making the `assert` of `getFeaturesData` fail. -/
def Mismatch {α : Type} (as ms : List (Traj α)) : Prop :=
  ∃ q ∈ List.zip as ms, (q.2 : Traj α).length ≠ (q.1 : Traj α).length

instance {α : Type} (as ms : List (Traj α)) : Decidable (Mismatch as ms) :=
  List.decidableBEx _ (List.zip as ms)

theorem addMetricsGo_ok {α : Type} :
    ∀ (ms as : List (Traj α)), ms.length = as.length → ¬ Mismatch as ms →
      addMetricsGo ms as = .ok (List.zipWith hconcat as ms) := by
  intro ms
  induction ms with
  | nil =>
    intro as hlen _
    have : as = [] := List.eq_nil_of_length_eq_zero hlen.symm
    subst this
    rfl
  | cons m ms ih =>
    intro as hlen hnm
    cases as with
    | nil => simp at hlen
    | cons a rest =>
      have hml : m.length = a.length := by
        by_contra hne
        exact hnm ⟨(a, m), by rw [List.zip_cons_cons]; exact List.mem_cons_self _ _, hne⟩
      have hrest : ¬ Mismatch rest ms := by
        intro hmm
        obtain ⟨q, hq, hne⟩ := hmm
        exact hnm ⟨q, by rw [List.zip_cons_cons]; exact List.mem_cons_of_mem _ hq, hne⟩
      have hlen2 : ms.length = rest.length := by simpa using hlen
      simp only [addMetricsGo, if_pos hml, ih rest hlen2 hrest]
      rfl

theorem addMetricsGo_error {α : Type} :
    ∀ (ms as : List (Traj α)), ms.length = as.length → Mismatch as ms →
      ∃ (arrs : List (Traj α)) (t : ℕ) (a m : Traj α),
        addMetricsGo ms as = .error ("AssertionError", arrs) ∧
        as[t]? = some a ∧ ms[t]? = some m ∧ m.length ≠ a.length ∧
        arrs[t]? = some a := by
  intro ms
  induction ms with
  | nil =>
    intro as _ hm
    obtain ⟨q, hq, _⟩ := hm
    rw [List.zip_nil_right] at hq
    cases hq
  | cons m ms ih =>
    intro as hlen hm
    cases as with
    | nil => simp at hlen
    | cons a rest =>
      by_cases hml : m.length = a.length
      · have hmt : Mismatch rest ms := by
          obtain ⟨q, hq, hne⟩ := hm
          rw [List.zip_cons_cons] at hq
          rcases List.mem_cons.mp hq with he | ht
          · exfalso
            subst he
            exact hne hml
          · exact ⟨q, ht, hne⟩
        have hlen2 : ms.length = rest.length := by simpa using hlen
        obtain ⟨arrs, t, a2, m2, herr, hat, hmst, hne2, harrt⟩ := ih rest hlen2 hmt
        refine ⟨hconcat a m :: arrs, t + 1, a2, m2, ?_, ?_, ?_, hne2, ?_⟩
        · simp only [addMetricsGo, if_pos hml, herr]
        · rw [List.getElem?_cons_succ]; exact hat
        · rw [List.getElem?_cons_succ]; exact hmst
        · rw [List.getElem?_cons_succ]; exact harrt
      · refine ⟨a :: rest, 0, a, m, ?_, List.getElem?_cons_zero, List.getElem?_cons_zero,
          hml, List.getElem?_cons_zero⟩
        simp only [addMetricsGo, if_neg hml]

theorem dlookup2_dinsert2_self {K1 K2 V : Type} [BEq K1] [LawfulBEq K1]
    [BEq K2] [LawfulBEq K2]
    (d : List (K1 × List (K2 × V))) (k1 : K1) (k2 : K2) (v : V) :
    dlookup2 (dinsert2 d k1 k2 v) k1 k2 = some v := by
  unfold dlookup2 dinsert2
  rw [dlookup_dinsert_self]
  simp only [Option.some_bind]
  exact dlookup_dinsert_self _ _ _

theorem dlookup2_dinsert2_ne_inner {K1 K2 V : Type} [BEq K1] [LawfulBEq K1]
    [BEq K2] [LawfulBEq K2]
    (d : List (K1 × List (K2 × V))) (k1 : K1) (k2 k2' : K2) (v : V)
    (h : k2' ≠ k2) :
    dlookup2 (dinsert2 d k1 k2 v) k1 k2' = dlookup2 d k1 k2' := by
  unfold dlookup2 dinsert2
  rw [dlookup_dinsert_self]
  simp only [Option.some_bind]
  rw [dlookup_dinsert_ne _ _ _ _ h]
  cases hh : dlookup d k1 with
  | none => simp [hh, dlookup]
  | some D => simp [hh]

theorem dinsert2_dinsert2 {K1 K2 V : Type} [BEq K1] [LawfulBEq K1]
    [BEq K2] [LawfulBEq K2]
    (d : List (K1 × List (K2 × V))) (k1 : K1) (k2 : K2) (v w : V) :
    dinsert2 (dinsert2 d k1 k2 v) k1 k2 w = dinsert2 d k1 k2 w := by
  unfold dinsert2
  rw [dlookup_dinsert_self]
  simp only [Option.getD_some]
  rw [dinsert_dinsert, dinsert_dinsert]

theorem gfdProtein_eq_nomf {α M : Type} (env : Env α M) (lig : String)
    (s : MSMState α M) (p : String) (tf ft : List String)
    (htf : dlookup s.trajectories (p, lig) = some tf)
    (hft : dlookup s.features lig = some ft)
    (hmf : dlookup s.metric_features lig = none) :
    gfdProtein env lig s p =
      .ok {s with data := dinsert2 s.data lig p (env.load tf ft),
                  all_data := dinsert s.all_data lig (((dlookup s.all_data lig).getD []) ++ env.load tf ft)} := by
  unfold gfdProtein
  rw [htf]
  dsimp only
  rw [hft]
  dsimp only
  rw [hmf]

theorem gfdProtein_eq_mf {α M : Type} (env : Env α M) (lig : String)
    (s : MSMState α M) (p : String) (tf ft : List String)
    (mfl : List (String × List (Traj α))) (ms : List (Traj α))
    (htf : dlookup s.trajectories (p, lig) = some tf)
    (hft : dlookup s.features lig = some ft)
    (hmf : dlookup s.metric_features lig = some mfl)
    (hms : dlookup mfl p = some ms) :
    gfdProtein env lig s p =
      match addMetricsGo ms (env.load tf ft) with
      | .error (e, arrs) =>
          .error (e, {s with data := dinsert2 s.data lig p arrs})
      | .ok arrs =>
          .ok {s with data := dinsert2 s.data lig p arrs,
                      all_data := dinsert s.all_data lig (((dlookup s.all_data lig).getD []) ++ arrs)} := by
  unfold gfdProtein
  rw [htf]
  dsimp only
  rw [hft]
  dsimp only
  rw [hmf]
  dsimp only
  rw [hms]
  dsimp only
  cases haddm : addMetricsGo ms (env.load tf ft) with
  | error e =>
    obtain ⟨e1, arrs⟩ := e
    dsimp only
    rw [dinsert2_dinsert2]
  | ok arrs =>
    dsimp only
    rw [dinsert2_dinsert2]

theorem gfdLoop_cons {α M : Type} (env : Env α M) (lig : String)
    (s : MSMState α M) (p : String) (ps : List String) :
    gfdLoop env lig s (p :: ps) =
      match gfdProtein env lig s p with
      | .error e => .error e
      | .ok s1 => gfdLoop env lig s1 ps :=
  rfl

theorem gfdLoop_spec {α M : Type} (env : Env α M) (lig : String)
    (mfl : List (String × List (Traj α))) (ft : List String)
    (tf : String → List String) (ms : String → List (Traj α)) :
    ∀ (ps : List String) (s : MSMState α M) (ad0 : List (Traj α)),
      dlookup s.metric_features lig = some mfl →
      dlookup s.features lig = some ft →
      dlookup s.all_data lig = some ad0 →
      (∀ p ∈ ps, dlookup s.trajectories (p, lig) = some (tf p)) →
      (∀ p ∈ ps, dlookup mfl p = some (ms p)) →
      (∀ p ∈ ps, (ms p).length = (env.load (tf p) ft).length) →
      ((∀ p ∈ ps, ¬ Mismatch (env.load (tf p) ft) (ms p)) →
        ∃ sf, gfdLoop env lig s ps = .ok sf ∧
          sf.trajectories = s.trajectories ∧
          sf.features = s.features ∧
          sf.metric_features = s.metric_features ∧
          (∀ p ∈ ps, dlookup2 sf.data lig p
            = some (List.zipWith hconcat (env.load (tf p) ft) (ms p))) ∧
          (∀ p, p ∉ ps → dlookup2 sf.data lig p = dlookup2 s.data lig p) ∧
          dlookup sf.all_data lig = some (ad0
            ++ (ps.map (fun p => List.zipWith hconcat (env.load (tf p) ft) (ms p))).flatten)) ∧
      ((∃ p ∈ ps, Mismatch (env.load (tf p) ft) (ms p)) →
        ∃ serr, gfdLoop env lig s ps = .error ("AssertionError", serr) ∧
          ∃ p ∈ ps, ∃ (t : ℕ) (a m : Traj α) (arrs : List (Traj α)),
            (env.load (tf p) ft)[t]? = some a ∧ (ms p)[t]? = some m ∧
            m.length ≠ a.length ∧
            dlookup2 serr.data lig p = some arrs ∧ arrs[t]? = some a) := by
  intro ps
  induction ps with
  | nil =>
    intro s ad0 hmf hft had _ _ _
    constructor
    · intro _
      refine ⟨s, rfl, rfl, rfl, rfl, ?_, ?_, ?_⟩
      · intro p hp; cases hp
      · intro p _; rfl
      · simpa using had
    · intro hex
      obtain ⟨p, hp, _⟩ := hex
      cases hp
  | cons p ps ih =>
    intro s ad0 hmf hft had htf hms hlen
    have hpmem : p ∈ p :: ps := List.mem_cons_self _ _
    have htfp := htf p hpmem
    have hmsp := hms p hpmem
    have hlenp := hlen p hpmem
    constructor
    · -- success case
      intro hnm
      have hnmp := hnm p hpmem
      have hok := addMetricsGo_ok (ms p) (env.load (tf p) ft) hlenp hnmp
      have hgp := gfdProtein_eq_mf env lig s p (tf p) ft mfl (ms p) htfp hft hmf hmsp
      rw [hok] at hgp
      dsimp only at hgp
      rw [had] at hgp
      set arrsp := List.zipWith hconcat (env.load (tf p) ft) (ms p) with harrsp
      set s1 : MSMState α M :=
        {s with data := dinsert2 s.data lig p arrsp,
                all_data := dinsert s.all_data lig (Option.getD (some ad0) [] ++ arrsp)} with hs1
      have had1 : dlookup s1.all_data lig = some (ad0 ++ arrsp) := by
        rw [hs1]
        dsimp only
        rw [dlookup_dinsert_self]
        rfl
      obtain ⟨hsucc, _⟩ :=
        ih s1 (ad0 ++ arrsp) hmf hft had1
          (fun q hq => htf q (List.mem_cons_of_mem _ hq))
          (fun q hq => hms q (List.mem_cons_of_mem _ hq))
          (fun q hq => hlen q (List.mem_cons_of_mem _ hq))
      obtain ⟨sf, hloop, htr, hfe, hmfe, hin, hout, hadf⟩ :=
        hsucc (fun q hq => hnm q (List.mem_cons_of_mem _ hq))
      refine ⟨sf, ?_, htr, hfe, hmfe, ?_, ?_, ?_⟩
      · rw [gfdLoop_cons, hgp]
        exact hloop
      · intro q hq
        by_cases hqps : q ∈ ps
        · exact hin q hqps
        · have hq2 : q = p := by
            rcases List.mem_cons.mp hq with h | h
            · exact h
            · exact absurd h hqps
          subst hq2
          rw [hout q hqps, hs1]
          dsimp only
          exact dlookup2_dinsert2_self _ _ _ _
      · intro q hq
        have hqps : q ∉ ps := fun h => hq (List.mem_cons_of_mem _ h)
        have hqp : q ≠ p := fun h => hq (h ▸ hpmem)
        rw [hout q hqps, hs1]
        dsimp only
        exact dlookup2_dinsert2_ne_inner _ _ _ _ _ hqp
      · rw [hadf]
        simp only [List.map_cons, List.flatten_cons, List.append_assoc]
    · -- failure case
      intro hex
      by_cases hheadmm : Mismatch (env.load (tf p) ft) (ms p)
      · obtain ⟨arrs, t, a, m, herr, hat, hmst, hne, harrt⟩ :=
          addMetricsGo_error (ms p) (env.load (tf p) ft) hlenp hheadmm
        have hgp := gfdProtein_eq_mf env lig s p (tf p) ft mfl (ms p) htfp hft hmf hmsp
        rw [herr] at hgp
        dsimp only at hgp
        refine ⟨{s with data := dinsert2 s.data lig p arrs}, ?_, p, hpmem,
          t, a, m, arrs, hat, hmst, hne, ?_, harrt⟩
        · rw [gfdLoop_cons, hgp]
        · dsimp only
          exact dlookup2_dinsert2_self _ _ _ _
      · have hok := addMetricsGo_ok (ms p) (env.load (tf p) ft) hlenp hheadmm
        have hgp := gfdProtein_eq_mf env lig s p (tf p) ft mfl (ms p) htfp hft hmf hmsp
        rw [hok] at hgp
        dsimp only at hgp
        rw [had] at hgp
        set arrsp := List.zipWith hconcat (env.load (tf p) ft) (ms p) with harrsp
        set s1 : MSMState α M :=
          {s with data := dinsert2 s.data lig p arrsp,
                  all_data := dinsert s.all_data lig (Option.getD (some ad0) [] ++ arrsp)} with hs1
        have had1 : dlookup s1.all_data lig = some (ad0 ++ arrsp) := by
          rw [hs1]
          dsimp only
          rw [dlookup_dinsert_self]
          rfl
        obtain ⟨_, hfail⟩ :=
          ih s1 (ad0 ++ arrsp) hmf hft had1
            (fun q hq => htf q (List.mem_cons_of_mem _ hq))
            (fun q hq => hms q (List.mem_cons_of_mem _ hq))
            (fun q hq => hlen q (List.mem_cons_of_mem _ hq))
        have hexps : ∃ q ∈ ps, Mismatch (env.load (tf q) ft) (ms q) := by
          obtain ⟨q, hq, hqmm⟩ := hex
          rcases List.mem_cons.mp hq with h | h
          · exact absurd (h ▸ hqmm) hheadmm
          · exact ⟨q, h, hqmm⟩
        obtain ⟨serr, hloop, q, hq, t, a, m, arrs, hat, hmst, hne, hserr, harrt⟩ :=
          hfail hexps
        refine ⟨serr, ?_, q, List.mem_cons_of_mem _ hq, t, a, m, arrs,
          hat, hmst, hne, hserr, harrt⟩
        rw [gfdLoop_cons, hgp]
        exact hloop

theorem getFeaturesData_eq_loop {α M : Type} (env : Env α M) (s : MSMState α M)
    (lig : String) :
    ∃ s2, getFeaturesData env s lig = gfdLoop env lig s2 env.proteins ∧
      s2.trajectories = s.trajectories ∧
      s2.features = s.features ∧
      s2.metric_features = s.metric_features ∧
      dlookup s2.all_data lig = some ((dlookup s.all_data lig).getD []) ∧
      (∀ p, dlookup2 s2.data lig p = dlookup2 s.data lig p) := by
  cases hd : dlookup s.data lig with
  | some D =>
    cases ha : dlookup s.all_data lig with
    | some A =>
      refine ⟨s, ?_, rfl, rfl, rfl, by simp [ha], fun p => rfl⟩
      simp [getFeaturesData, hd, ha]
    | none =>
      refine ⟨{s with all_data := dinsert s.all_data lig []}, ?_, rfl, rfl, rfl, ?_, fun p => rfl⟩
      · simp [getFeaturesData, hd, ha, dlookup_dinsert_self]
      · simp only [ha, Option.getD_none]
        exact dlookup_dinsert_self _ _ _
  | none =>
    cases ha : dlookup s.all_data lig with
    | some A =>
      refine ⟨{s with data := dinsert s.data lig []}, ?_, rfl, rfl, rfl, by simp [ha], ?_⟩
      · simp [getFeaturesData, hd, ha, dlookup_dinsert_self]
      · intro p
        unfold dlookup2
        rw [hd, dlookup_dinsert_self]
        simp [dlookup]
    | none =>
      refine ⟨{s with data := dinsert s.data lig [], all_data := dinsert s.all_data lig []}, ?_, rfl, rfl, rfl, ?_, ?_⟩
      · simp [getFeaturesData, hd, ha, dlookup_dinsert_self]
      · simp only [ha, Option.getD_none]
        exact dlookup_dinsert_self _ _ _
      · intro p
        unfold dlookup2
        rw [hd, dlookup_dinsert_self]
        simp [dlookup]

/-! Claim C3: the frame-count assertion of `getFeaturesData`. -/

/-- Claim C3: for a ligand with registered metric features (in the state of
the normal flow: featurizer and trajectories present, one metric array per
loaded trajectory array), `getFeaturesData` raises iff some (protein,
trajectory) has a metric array whose row count differs from the loaded
coordinate-derived array's row count; any raise carries the message of the
frame-count `assert` (and `getFeaturesData` contains no plotting at all),
and in the error state the failing trajectory's entry still holds the raw
loaded array — the raise happens before that trajectory's concatenation.
On success every trajectory's feature array is the column-wise concatenation
of the loaded array with its metric array. -/
theorem C3_getFeaturesData_assert {α M : Type} (env : Env α M) (s : MSMState α M)
    (lig : String) (mfl : List (String × List (Traj α))) (ft : List String)
    (tf : String → List String) (ms : String → List (Traj α))
    (hmf : dlookup s.metric_features lig = some mfl)
    (hft : dlookup s.features lig = some ft)
    (htf : ∀ p ∈ env.proteins, dlookup s.trajectories (p, lig) = some (tf p))
    (hms : ∀ p ∈ env.proteins, dlookup mfl p = some (ms p))
    (hlen : ∀ p ∈ env.proteins, (ms p).length = (env.load (tf p) ft).length) :
    ((∃ sf, getFeaturesData env s lig = .ok sf) ↔
      ∀ p ∈ env.proteins, ¬ Mismatch (env.load (tf p) ft) (ms p)) ∧
    (∀ sf, getFeaturesData env s lig = .ok sf →
      ∀ p ∈ env.proteins, dlookup2 sf.data lig p
        = some (List.zipWith hconcat (env.load (tf p) ft) (ms p))) ∧
    (∀ e serr, getFeaturesData env s lig = .error (e, serr) →
      e = "AssertionError" ∧
      ∃ p ∈ env.proteins, ∃ (t : ℕ) (a m : Traj α) (arrs : List (Traj α)),
        (env.load (tf p) ft)[t]? = some a ∧ (ms p)[t]? = some m ∧
        m.length ≠ a.length ∧
        dlookup2 serr.data lig p = some arrs ∧ arrs[t]? = some a) := by
  obtain ⟨s2, heq, htr2, hft2, hmf2, had2, hdata2⟩ := getFeaturesData_eq_loop env s lig
  have hmfZ : dlookup s2.metric_features lig = some mfl := by rw [hmf2]; exact hmf
  have hftZ : dlookup s2.features lig = some ft := by rw [hft2]; exact hft
  have htfZ : ∀ p ∈ env.proteins, dlookup s2.trajectories (p, lig) = some (tf p) := by
    intro p hp; rw [htr2]; exact htf p hp
  obtain ⟨hsucc, hfail⟩ :=
    gfdLoop_spec env lig mfl ft tf ms env.proteins s2 ((dlookup s.all_data lig).getD [])
      hmfZ hftZ had2 htfZ hms hlen
  have hforward : (∃ sf, getFeaturesData env s lig = .ok sf) →
      ∀ p ∈ env.proteins, ¬ Mismatch (env.load (tf p) ft) (ms p) := by
    rintro ⟨sf, hsf⟩
    by_contra hnall
    push_neg at hnall
    obtain ⟨p, hp, hmm⟩ := hnall
    obtain ⟨serr, hloop, _⟩ := hfail ⟨p, hp, hmm⟩
    rw [heq, hloop] at hsf
    cases hsf
  refine ⟨⟨hforward, ?_⟩, ?_, ?_⟩
  · intro hnall
    obtain ⟨sf, hloop, _⟩ := hsucc hnall
    exact ⟨sf, heq.trans hloop⟩
  · intro sf hsf p hp
    have hnall := hforward ⟨sf, hsf⟩
    obtain ⟨sf2, hloop, _, _, _, hin, _, _⟩ := hsucc hnall
    have hsf2 : sf2 = sf := by
      rw [heq, hloop] at hsf
      cases hsf
      rfl
    subst hsf2
    exact hin p hp
  · intro e serr herr
    have hmm : ∃ p ∈ env.proteins, Mismatch (env.load (tf p) ft) (ms p) := by
      by_contra hnall
      push_neg at hnall
      obtain ⟨sf, hloop, _⟩ := hsucc hnall
      rw [heq, hloop] at herr
      cases herr
    obtain ⟨serr2, hloop, p, hp, t, a, m, arrs, hat, hmst, hne, hserr2, harrt⟩ :=
      hfail hmm
    rw [heq, hloop] at herr
    cases herr
    exact ⟨rfl, p, hp, t, a, m, arrs, hat, hmst, hne, hserr2, harrt⟩

/-- State with metric features registered for ligand L (one protein P, one
metric array with one frame and one metric column), matching the one
trajectory of one frame that `env0.load` returns; used by the C2/C3
witnesses. -/
def stMF : MSMState Unit Unit :=
  {st0 with metric_features := [("L", [("P", [[[()]]])])]}

/-- Witness for C3 on `env0` / `stMF`: row counts match, so the run succeeds
and the single trajectory's feature array gains the metric column. -/
theorem C3_witness :
    ∃ sf, getFeaturesData env0 stMF "L" = .ok sf ∧
      dlookup2 sf.data "L" "P" = some [[[(), ()]]] := by
  have h := C3_getFeaturesData_assert env0 stMF "L" [("P", [[[()]]])] []
      (fun _ => ["traj1"]) (fun _ => [[[()]]]) rfl rfl
      (by decide) (by decide) (by decide)
  obtain ⟨hiff, hok, _⟩ := h
  obtain ⟨sf, hsf⟩ := hiff.mpr (by decide)
  refine ⟨sf, hsf, ?_⟩
  have hsh := hok sf hsf "P" (by decide)
  exact hsh

/-! Claim C2: re-invocation with the same key. -/

/-- One `getFeaturesData('L')` invocation on `env0` / `stMF`. -/
def gfdOnce : Except (String × MSMState Unit Unit) (MSMState Unit Unit) :=
  getFeaturesData env0 stMF "L"

/-- The identical re-invocation. -/
def gfdTwice : Except (String × MSMState Unit Unit) (MSMState Unit Unit) :=
  match gfdOnce with
  | .ok s1 => getFeaturesData env0 s1 "L"
  | .error e => .error e

/-- Observation of the pooled `all_data['L']` list length of a run's
resulting state. -/
def pooledLen (r : Except (String × MSMState Unit Unit) (MSMState Unit Unit)) :
    Option ℕ :=
  match r with
  | .ok s => some ((dlookup s.all_data "L").getD []).length
  | .error _ => none

/-- Claim C2, counterexample: on `env0` / `stMF`, one `getFeaturesData('L')`
leaves one pooled array in `all_data['L']`, the identical re-invocation
leaves two — the method appends to the pooled list instead of overwriting,
so the state after two identical invocations differs from the state after
one. -/
theorem C2_counterexample :
    pooledLen gfdOnce = some 1 ∧ pooledLen gfdTwice = some 2 ∧
    gfdTwice ≠ gfdOnce := by
  refine ⟨by decide, by decide, ?_⟩
  intro h
  exact absurd (congrArg pooledLen h) (by decide)

theorem metricsFold_lookup_not_mem {α : Type} (df : DataFrame α) (lig : String) :
    ∀ (l : List String) (mf0 : List (String × List (Traj α))) (p : String),
      p ∉ l →
      dlookup (l.foldl
        (fun mf q => dinsert mf q ((dlookup mf q).getD [] ++ metricArrays df lig q)) mf0) p
        = dlookup mf0 p := by
  intro l
  induction l with
  | nil => intro mf0 p _; rfl
  | cons q rest ih =>
    intro mf0 p hp
    simp only [List.mem_cons, not_or] at hp
    calc dlookup (((q :: rest).foldl
          (fun mf r => dinsert mf r ((dlookup mf r).getD [] ++ metricArrays df lig r)) mf0)) p
        = dlookup ((rest.foldl
          (fun mf r => dinsert mf r ((dlookup mf r).getD [] ++ metricArrays df lig r))
            (dinsert mf0 q ((dlookup mf0 q).getD [] ++ metricArrays df lig q)))) p := rfl
      _ = dlookup (dinsert mf0 q ((dlookup mf0 q).getD [] ++ metricArrays df lig q)) p :=
          ih _ _ hp.2
      _ = dlookup mf0 p := dlookup_dinsert_ne _ _ _ _ hp.1

theorem metricsFold_lookup_mem {α : Type} (df : DataFrame α) (lig : String) :
    ∀ (l : List String) (mf0 : List (String × List (Traj α))) (p : String),
      l.Nodup → p ∈ l →
      dlookup (l.foldl
        (fun mf q => dinsert mf q ((dlookup mf q).getD [] ++ metricArrays df lig q)) mf0) p
        = some ((dlookup mf0 p).getD [] ++ metricArrays df lig p) := by
  intro l
  induction l with
  | nil => intro mf0 p _ hp; cases hp
  | cons q rest ih =>
    intro mf0 p hnd hp
    simp only [List.nodup_cons] at hnd
    rcases List.mem_cons.mp hp with heq | htail
    · subst heq
      calc dlookup (((p :: rest).foldl
            (fun mf r => dinsert mf r ((dlookup mf r).getD [] ++ metricArrays df lig r)) mf0)) p
          = dlookup ((rest.foldl
            (fun mf r => dinsert mf r ((dlookup mf r).getD [] ++ metricArrays df lig r))
              (dinsert mf0 p ((dlookup mf0 p).getD [] ++ metricArrays df lig p)))) p := rfl
        _ = dlookup (dinsert mf0 p ((dlookup mf0 p).getD [] ++ metricArrays df lig p)) p :=
            metricsFold_lookup_not_mem df lig _ _ _ hnd.1
        _ = some ((dlookup mf0 p).getD [] ++ metricArrays df lig p) :=
            dlookup_dinsert_self _ _ _
    · have hpq : p ≠ q := fun h => hnd.1 (h ▸ htail)
      calc dlookup (((q :: rest).foldl
            (fun mf r => dinsert mf r ((dlookup mf r).getD [] ++ metricArrays df lig r)) mf0)) p
          = dlookup ((rest.foldl
            (fun mf r => dinsert mf r ((dlookup mf r).getD [] ++ metricArrays df lig r))
              (dinsert mf0 q ((dlookup mf0 q).getD [] ++ metricArrays df lig q)))) p := rfl
        _ = some ((dlookup (dinsert mf0 q ((dlookup mf0 q).getD [] ++ metricArrays df lig q)) p).getD []
              ++ metricArrays df lig p) := ih _ _ hnd.2 htail
        _ = some ((dlookup mf0 p).getD [] ++ metricArrays df lig p) := by
              rw [dlookup_dinsert_ne _ _ _ _ hpq]

theorem dlookup_getD_empty {K1 K2 V : Type} [BEq K1] [BEq K2]
    (d : List (K1 × List (K2 × V))) (k1 : K1) (k2 : K2) :
    dlookup ((dlookup d k1).getD []) k2 = dlookup2 d k1 k2 := by
  cases h : dlookup d k1 with
  | none =>
    simp only [dlookup2, h, Option.getD_none, Option.none_bind]
    rfl
  | some D => simp only [dlookup2, h, Option.getD_some, Option.some_bind]

theorem dlookup2_dinsert_outer {K1 K2 V : Type} [BEq K1] [LawfulBEq K1] [BEq K2]
    (d : List (K1 × List (K2 × V))) (k1 : K1) (D : List (K2 × V)) (k2 : K2) :
    dlookup2 (dinsert d k1 D) k1 k2 = dlookup D k2 := by
  unfold dlookup2
  rw [dlookup_dinsert_self]
  rfl

theorem addFeature_metrics_eq {α M : Type} (env : Env α M) (s : MSMState α M)
    (lig : String) :
    addFeature env s "metrics" lig
      = .ok {s with metric_features := dinsert s.metric_features lig (metricsUpdate env lig ((dlookup s.metric_features lig).getD []))} := by
  simp [addFeature, implemented_features]

/-- Claim C2 as amended: re-invocation with the same key is not idempotent.
`getFeaturesData(ligand)` does overwrite the per-protein entries of
`data[ligand]`, but appends the freshly computed arrays to the pooled
`all_data[ligand]` again, and `addFeature('metrics', ligand)` appends every
per-trajectory metric array to `metric_features[ligand][protein]` again, so
the state after two identical invocations carries those lists twice over and
differs from the state after one. -/
theorem C2_amended {α M : Type} (env : Env α M) (s : MSMState α M)
    (lig p : String) (mfl : List (String × List (Traj α))) (ft : List String)
    (tf : String → List String) (ms : String → List (Traj α))
    (hp : p ∈ env.proteins) (hnodup : env.proteins.Nodup)
    (hmf : dlookup s.metric_features lig = some mfl)
    (hft : dlookup s.features lig = some ft)
    (htf : ∀ q ∈ env.proteins, dlookup s.trajectories (q, lig) = some (tf q))
    (hms : ∀ q ∈ env.proteins, dlookup mfl q = some (ms q))
    (hlen : ∀ q ∈ env.proteins, (ms q).length = (env.load (tf q) ft).length)
    (hnm : ∀ q ∈ env.proteins, ¬ Mismatch (env.load (tf q) ft) (ms q)) :
    (∃ s1 s2, addFeature env s "metrics" lig = .ok s1 ∧
      addFeature env s1 "metrics" lig = .ok s2 ∧
      dlookup2 s1.metric_features lig p
        = some ((dlookup2 s.metric_features lig p).getD [] ++ metricArrays env.df lig p) ∧
      dlookup2 s2.metric_features lig p
        = some ((dlookup2 s.metric_features lig p).getD [] ++ metricArrays env.df lig p ++ metricArrays env.df lig p)) ∧
    (∃ g1 g2, getFeaturesData env s lig = .ok g1 ∧ getFeaturesData env g1 lig = .ok g2 ∧
      (∀ q ∈ env.proteins, dlookup2 g2.data lig q = dlookup2 g1.data lig q) ∧
      dlookup g1.all_data lig = some ((dlookup s.all_data lig).getD []
        ++ (env.proteins.map (fun q => List.zipWith hconcat (env.load (tf q) ft) (ms q))).flatten) ∧
      dlookup g2.all_data lig = some ((dlookup s.all_data lig).getD []
        ++ (env.proteins.map (fun q => List.zipWith hconcat (env.load (tf q) ft) (ms q))).flatten
        ++ (env.proteins.map (fun q => List.zipWith hconcat (env.load (tf q) ft) (ms q))).flatten)) := by
  constructor
  · -- addFeature('metrics') accumulates
    refine ⟨_, _, addFeature_metrics_eq env s lig, addFeature_metrics_eq env _ lig, ?_, ?_⟩
    · dsimp only
      rw [dlookup2_dinsert_outer]
      unfold metricsUpdate
      rw [metricsFold_lookup_mem env.df lig env.proteins _ p hnodup hp,
          dlookup_getD_empty]
    · dsimp only
      rw [dlookup2_dinsert_outer]
      have hm1 : (dlookup (dinsert s.metric_features lig (metricsUpdate env lig ((dlookup s.metric_features lig).getD []))) lig).getD []
          = metricsUpdate env lig ((dlookup s.metric_features lig).getD []) := by
        rw [dlookup_dinsert_self]
        rfl
      rw [hm1]
      unfold metricsUpdate
      rw [metricsFold_lookup_mem env.df lig env.proteins _ p hnodup hp,
          metricsFold_lookup_mem env.df lig env.proteins _ p hnodup hp]
      simp only [Option.getD_some]
      rw [dlookup_getD_empty]
  · -- getFeaturesData accumulates
    obtain ⟨sA, heqA, htrA, hftA, hmfA, hadA, hdtA⟩ := getFeaturesData_eq_loop env s lig
    have hmfZ : dlookup sA.metric_features lig = some mfl := by rw [hmfA]; exact hmf
    have hftZ : dlookup sA.features lig = some ft := by rw [hftA]; exact hft
    have htfZ : ∀ q ∈ env.proteins, dlookup sA.trajectories (q, lig) = some (tf q) := by
      intro q hq; rw [htrA]; exact htf q hq
    obtain ⟨hsuccA, _⟩ :=
      gfdLoop_spec env lig mfl ft tf ms env.proteins sA ((dlookup s.all_data lig).getD [])
        hmfZ hftZ hadA htfZ hms hlen
    obtain ⟨g1, hloopA, htrG, hftG, hmfG, hinG, _, hadG⟩ := hsuccA hnm
    obtain ⟨sB, heqB, htrB, hftB, hmfB, hadB, hdtB⟩ := getFeaturesData_eq_loop env g1 lig
    have hmfZ2 : dlookup sB.metric_features lig = some mfl := by
      rw [hmfB, hmfG, hmfA]; exact hmf
    have hftZ2 : dlookup sB.features lig = some ft := by
      rw [hftB, hftG, hftA]; exact hft
    have htfZ2 : ∀ q ∈ env.proteins, dlookup sB.trajectories (q, lig) = some (tf q) := by
      intro q hq; rw [htrB, htrG, htrA]; exact htf q hq
    have hadB2 : dlookup sB.all_data lig
        = some ((dlookup s.all_data lig).getD []
          ++ (env.proteins.map (fun q => List.zipWith hconcat (env.load (tf q) ft) (ms q))).flatten) := by
      rw [hadB, hadG]
      rfl
    obtain ⟨hsuccB, _⟩ :=
      gfdLoop_spec env lig mfl ft tf ms env.proteins sB _ hmfZ2 hftZ2 hadB2 htfZ2 hms hlen
    obtain ⟨g2, hloopB, _, _, _, hinG2, _, hadG2⟩ := hsuccB hnm
    refine ⟨g1, g2, heqA.trans hloopA, heqB.trans hloopB, ?_, hadG, hadG2⟩
    intro q hq
    rw [hinG2 q hq, hinG q hq]

/-- Witness for C2's amended claim on `env0` / `stMF` with protein P. -/
theorem C2_witness :
    (∃ s1 s2, addFeature env0 stMF "metrics" "L" = .ok s1 ∧
      addFeature env0 s1 "metrics" "L" = .ok s2 ∧
      dlookup2 s1.metric_features "L" "P"
        = some ((dlookup2 stMF.metric_features "L" "P").getD [] ++ metricArrays env0.df "L" "P") ∧
      dlookup2 s2.metric_features "L" "P"
        = some ((dlookup2 stMF.metric_features "L" "P").getD [] ++ metricArrays env0.df "L" "P" ++ metricArrays env0.df "L" "P")) ∧
    (∃ g1 g2, getFeaturesData env0 stMF "L" = .ok g1 ∧ getFeaturesData env0 g1 "L" = .ok g2 ∧
      (∀ q ∈ env0.proteins, dlookup2 g2.data "L" q = dlookup2 g1.data "L" q) ∧
      dlookup g1.all_data "L" = some ((dlookup stMF.all_data "L").getD []
        ++ (env0.proteins.map (fun q => List.zipWith hconcat (env0.load ((fun _ => ["traj1"]) q) []) ((fun _ => [[[()]]] : String → List (Traj Unit)) q))).flatten) ∧
      dlookup g2.all_data "L" = some ((dlookup stMF.all_data "L").getD []
        ++ (env0.proteins.map (fun q => List.zipWith hconcat (env0.load ((fun _ => ["traj1"]) q) []) ((fun _ => [[[()]]] : String → List (Traj Unit)) q))).flatten
        ++ (env0.proteins.map (fun q => List.zipWith hconcat (env0.load ((fun _ => ["traj1"]) q) []) ((fun _ => [[[()]]] : String → List (Traj Unit)) q))).flatten)) :=
  C2_amended env0 stMF "L" "P" [("P", [[[()]]])] []
    (fun _ => ["traj1"]) (fun _ => [[[()]]])
    (by decide) (by decide) rfl rfl (by decide) (by decide) (by decide) (by decide)

/-! Claim C7: the end-to-end two-protein / two-trajectory scenario. -/

/-- Shape guarantee of the abstract pyemma TICA projection: the projected
array keeps the row count of its input and every projected row has `d`
columns (the retained dimensionality of the fitted TICA object). -/
def ShapeRel {α : Type} (d : ℕ) (t u : Traj α) : Prop :=
  u.length = t.length ∧ ∀ r ∈ u, r.length = d

theorem ncols_flatten_head {α : Type} (O : Traj α) (rest : List (Traj α)) (d : ℕ)
    (hn : 0 < O.length) (hrows : ∀ r ∈ O, r.length = d) :
    ncols (njoin (O :: rest)) = d := by
  cases O with
  | nil => simp at hn
  | cons r O2 =>
    have hr : r.length = d := hrows r (List.mem_cons_self _ _)
    simp [ncols, njoin, List.flatten_cons, hr]

theorem gfdProtein_nomf_facts {α M : Type} (env : Env α M) (lig : String)
    (s : MSMState α M) (p : String) (tf ft : List String)
    (D : List (String × List (Traj α))) (A loaded : List (Traj α))
    (htf : dlookup s.trajectories (p, lig) = some tf)
    (hft : dlookup s.features lig = some ft)
    (hmf : dlookup s.metric_features lig = none)
    (hload : env.load tf ft = loaded)
    (hdata : dlookup s.data lig = some D)
    (hallD : dlookup s.all_data lig = some A) :
    ∃ s1, gfdProtein env lig s p = .ok s1 ∧
      s1.trajectories = s.trajectories ∧ s1.features = s.features ∧
      s1.metric_features = s.metric_features ∧
      s1.tica_output = s.tica_output ∧
      s1.tica_concatenated = s.tica_concatenated ∧
      dlookup s1.data lig = some (dinsert D p loaded) ∧
      dlookup s1.all_data lig = some (A ++ loaded) := by
  rw [gfdProtein_eq_nomf env lig s p tf ft htf hft hmf, hload]
  refine ⟨_, rfl, rfl, rfl, rfl, rfl, rfl, ?_, ?_⟩
  · dsimp only
    unfold dinsert2
    rw [hdata, dlookup_dinsert_self]
    rfl
  · dsimp only
    rw [hallD, dlookup_dinsert_self]
    rfl

/-- Claim C7: one ligand with two proteins, each with two trajectories of
100 frames (no metric features registered); after `getFeaturesData(ligand)`
and `calculateTICA(ligand, 1)`, for each protein the concatenation
`tica_concatenated[ligand][protein]` has exactly 200 rows and a column count
equal to `ndims`, the column count `d` of the pooled concatenated TICA
output.  The `ShapeRel` hypotheses state what pyemma guarantees of
`.get_output()` and `.transform`: per-trajectory row counts are preserved
and every projected row has the retained dimensionality. -/
theorem C7_end_to_end {α M : Type} (env : Env α M) (s : MSMState α M)
    (lig P1 P2 : String) (tf1 tf2 ft : List String)
    (A1 A2 B1 B2 : Traj α) (d : ℕ)
    (hprot : env.proteins = [P1, P2]) (hPne : P1 ≠ P2)
    (htf1 : dlookup s.trajectories (P1, lig) = some tf1)
    (htf2 : dlookup s.trajectories (P2, lig) = some tf2)
    (hft : dlookup s.features lig = some ft)
    (hmf : dlookup s.metric_features lig = none)
    (hdata : dlookup s.data lig = none)
    (hallD : dlookup s.all_data lig = none)
    (hload1 : env.load tf1 ft = [A1, A2]) (hload2 : env.load tf2 ft = [B1, B2])
    (hA1 : A1.length = 100) (hA2 : A2.length = 100)
    (hB1 : B1.length = 100) (hB2 : B2.length = 100)
    (hout : List.Forall₂ (ShapeRel d) [A1, A2, B1, B2]
      (env.ticaOutput (env.ticaFit [A1, A2, B1, B2] 1)))
    (htr1 : List.Forall₂ (ShapeRel d) [A1, A2]
      (env.ticaTransform (env.ticaFit [A1, A2, B1, B2] 1) [A1, A2]))
    (htr2 : List.Forall₂ (ShapeRel d) [B1, B2]
      (env.ticaTransform (env.ticaFit [A1, A2, B1, B2] 1) [B1, B2])) :
    ∃ g1 s2,
      getFeaturesData env s lig = .ok g1 ∧
      calculateTICA env g1 lig 1 = .ok s2 ∧
      s2.ndims = some d ∧
      (∃ c1, dlookup2 s2.tica_concatenated lig P1 = some c1 ∧
        c1.length = 200 ∧ ncols c1 = d) ∧
      (∃ c2, dlookup2 s2.tica_concatenated lig P2 = some c2 ∧
        c2.length = 200 ∧ ncols c2 = d) := by
  have hbeq : (P1 == P2) = false := beq_eq_false_iff_ne.mpr hPne
  -- the existence checks at the top of getFeaturesData
  have hstep0 : getFeaturesData env s lig
      = gfdLoop env lig {s with data := dinsert s.data lig [], all_data := dinsert s.all_data lig []} [P1, P2] := by
    simp [getFeaturesData, hdata, hallD, hprot]
  -- the P1 iteration
  obtain ⟨s1, hA, htrA, hftA, hmfA, htoA, htcA, hdA, hadA⟩ :=
    gfdProtein_nomf_facts env lig
      {s with data := dinsert s.data lig [], all_data := dinsert s.all_data lig []}
      P1 tf1 ft [] [] [A1, A2] htf1 hft hmf hload1
      (dlookup_dinsert_self _ _ _) (dlookup_dinsert_self _ _ _)
  -- the P2 iteration
  obtain ⟨g1, hB, htrB, hftB, hmfB, htoB, htcB, hdB, hadB⟩ :=
    gfdProtein_nomf_facts env lig s1 P2 tf2 ft [(P1, [A1, A2])] [A1, A2] [B1, B2]
      (by rw [htrA]; exact htf2) (by rw [hftA]; exact hft) (by rw [hmfA]; exact hmf)
      hload2 (by rw [hdA]; rfl) (by rw [hadA]; rfl)
  have hgfd : getFeaturesData env s lig = .ok g1 := by
    rw [hstep0, gfdLoop_cons, hA]
    dsimp only
    rw [gfdLoop_cons, hB]
    rfl
  -- the TICA fit
  have hadg : dlookup g1.all_data lig = some [A1, A2, B1, B2] := by
    rw [hadB]
    rfl
  have hdg : dlookup g1.data lig = some [(P1, [A1, A2]), (P2, [B1, B2])] := by
    rw [hdB]
    simp [dinsert, hbeq]
  obtain ⟨s2, hcalc, _, _, _, _, _, _, _, _, hndims, _, htcs2⟩ :=
    calculateTICA_spec env g1 lig 1 [A1, A2, B1, B2] [(P1, [A1, A2]), (P2, [B1, B2])]
      hadg hdg
  have hndDL : (([(P1, [A1, A2]), (P2, [B1, B2])].map
      (Prod.fst : String × List (Traj α) → String))).Nodup := by
    simp [hPne]
  -- the pooled output has d columns
  obtain ⟨O1, out1, hrelO1, hout1, houteq⟩ := List.forall₂_cons_left_iff.mp hout
  have hndval : s2.ndims = some d := by
    rw [hndims, houteq]
    have hcn : ncols (njoin (O1 :: out1)) = d := by
      apply ncols_flatten_head O1 out1 d
      · rw [hrelO1.1, hA1]
        norm_num
      · exact hrelO1.2
    rw [hcn]
  -- per-protein concatenations
  obtain ⟨T1, tr1a, hrelT1, htr1a, htr1eq⟩ := List.forall₂_cons_left_iff.mp htr1
  obtain ⟨T2, tr1b, hrelT2, htr1b, htr1beq⟩ := List.forall₂_cons_left_iff.mp htr1a
  have htr1nil : tr1b = [] := List.forall₂_nil_left_iff.mp htr1b
  subst htr1nil
  obtain ⟨U1, tr2a, hrelU1, htr2a, htr2eq⟩ := List.forall₂_cons_left_iff.mp htr2
  obtain ⟨U2, tr2b, hrelU2, htr2b, htr2beq⟩ := List.forall₂_cons_left_iff.mp htr2a
  have htr2nil : tr2b = [] := List.forall₂_nil_left_iff.mp htr2b
  subst htr2nil
  subst htr1beq
  subst htr2beq
  refine ⟨g1, s2, hgfd, hcalc, hndval, ?_, ?_⟩
  · refine ⟨njoin (env.ticaTransform (env.ticaFit [A1, A2, B1, B2] 1) [A1, A2]), ?_, ?_, ?_⟩
    · rw [htcs2, dlookup2_dinsert_outer]
      exact dlookup_updDict_mem _ _ _ [A1, A2] _ hndDL (List.mem_cons_self _ _)
    · rw [htr1eq]
      simp only [njoin, List.flatten_cons, List.flatten_nil, List.append_nil,
        List.length_append]
      rw [hrelT1.1, hrelT2.1, hA1, hA2]
    · rw [htr1eq]
      apply ncols_flatten_head T1 [T2] d
      · rw [hrelT1.1, hA1]
        norm_num
      · exact hrelT1.2
  · refine ⟨njoin (env.ticaTransform (env.ticaFit [A1, A2, B1, B2] 1) [B1, B2]), ?_, ?_, ?_⟩
    · rw [htcs2, dlookup2_dinsert_outer]
      exact dlookup_updDict_mem _ _ _ [B1, B2] _ hndDL
        (List.mem_cons_of_mem _ (List.mem_cons_self _ _))
    · rw [htr2eq]
      simp only [njoin, List.flatten_cons, List.flatten_nil, List.append_nil,
        List.length_append]
      rw [hrelU1.1, hrelU2.1, hB1, hB2]
    · rw [htr2eq]
      apply ncols_flatten_head U1 [U2] d
      · rw [hrelU1.1, hB1]
        norm_num
      · exact hrelU1.2

/-- A 100-frame trajectory (with zero feature columns) for the C7 witness. -/
def trajW : Traj Unit := List.replicate 100 []

/-- Environment of the C7 witness: two proteins, every trajectory pair loads
as two 100-frame arrays, the abstract TICA projection is the identity (so
the retained dimensionality is 0). -/
def envW : Env Unit Unit where
  proteins := ["P1", "P2"]
  df := ⟨[], [], []⟩
  load := fun _ _ => [trajW, trajW]
  ticaFit := fun _ _ => ()
  ticaOutput := fun _ => [trajW, trajW, trajW, trajW]
  ticaTransform := fun _ ts => ts

/-- Freshly-constructed state of the C7 witness. -/
def stW : MSMState Unit Unit where
  trajectories := [(("P1", "L"), ["t"]), (("P2", "L"), ["t"])]
  all_trajectories := ["t"]
  topology := [("L", "topology")]
  ligand_atoms := [("L", [])]
  features := [("L", [])]
  data := []
  tica_output := []
  tica_concatenated := []
  all_data := []
  all_tica := []
  all_tica_output := []
  all_tica_concatenated := []
  metric_features := []
  ndims := none

theorem shapeRel_trajW : ShapeRel 0 trajW trajW :=
  ⟨rfl, fun r hr => by rw [List.eq_of_mem_replicate hr]; rfl⟩

theorem forall2W4 : List.Forall₂ (ShapeRel 0) [trajW, trajW, trajW, trajW]
    [trajW, trajW, trajW, trajW] :=
  .cons shapeRel_trajW (.cons shapeRel_trajW
    (.cons shapeRel_trajW (.cons shapeRel_trajW .nil)))

theorem forall2W2 : List.Forall₂ (ShapeRel 0) [trajW, trajW] [trajW, trajW] :=
  .cons shapeRel_trajW (.cons shapeRel_trajW .nil)

/-- Witness for C7 on `envW` / `stW`. -/
theorem C7_witness :
    ∃ g1 s2,
      getFeaturesData envW stW "L" = .ok g1 ∧
      calculateTICA envW g1 "L" 1 = .ok s2 ∧
      s2.ndims = some 0 ∧
      (∃ c1, dlookup2 s2.tica_concatenated "L" "P1" = some c1 ∧
        c1.length = 200 ∧ ncols c1 = 0) ∧
      (∃ c2, dlookup2 s2.tica_concatenated "L" "P2" = some c2 ∧
        c2.length = 200 ∧ ncols c2 = 0) :=
  C7_end_to_end envW stW "L" "P1" "P2" ["t"] ["t"] []
    trajW trajW trajW trajW 0
    rfl (by decide) rfl rfl rfl rfl rfl rfl rfl rfl
    (by simp [trajW]) (by simp [trajW]) (by simp [trajW]) (by simp [trajW])
    forall2W4 forall2W2 forall2W2

end PeleMSM
